import Mathlib

/-!
A verification development for the eco-parser toolchain: a lexer, a
recursive-descent parser, a tree-walking interpreter with a scope chain and
closures, and a module bundler.  The TypeScript sources are embedded shallowly:

* machine numbers are modelled as `Int` (the programs under study only use
  integer arithmetic; IEEE floats are out of scope, and the fractional part of
  a float literal is dropped by the embedding);
* JavaScript dictionaries are insertion-ordered association lists;
* the mutable `Runtime` is threaded as an explicit `State` value;
* JavaScript exceptions (`ReturnValueException`, user `throw`, host errors)
  are an explicit `Outcome`;
* object values are immutable snapshots: in-place writes through an aliased
  object reference (`obj[i] = v` where `obj` came from an expression) are
  evaluated for their sub-effects but the heap write itself is dropped, as the
  embedding has no heap.  No theorem below depends on such writes;
* every recursive evaluation and parse carries a fuel argument; `none` means
  the fuel ran out (the source functions may genuinely diverge, e.g. `while`).

Evaluation results additionally carry a `caught` instrumentation bit that is
set exactly when a `try/catch` handler intercepts an exception, or when a
function call's argument marshalling (which runs outside the `try` that guards
the body) is aborted by an unwind; these are precisely the code paths on which
the source skips its `popScope` calls.  The bit changes no behaviour and
exists to state the stack-depth invariant precisely.
-/

namespace Eco

/-- Payload of a `LiteralNode` (the parser only builds these shapes). -/
inductive Lit where
  | num (n : Int)
  | str (s : String)
  | bool (b : Bool)
  | null
  | undef
deriving DecidableEq, Repr

/-- `IImportObject`: an `import { name as alias }` entry. -/
structure ImportObj where
  name : String
  aliasName : Option String
deriving DecidableEq, Repr

/-- `IExportAsObject`: an `export { name as alias }` / `export { default as alias }` entry. -/
structure ExportAs where
  name : Option String
  defaultObject : Bool
  aliasName : Option String
deriving DecidableEq, Repr

mutual

/-- The AST node sum type: one constructor per `ParseNode` subclass of
`nodes.ts` (statement and expression families merged, as in the source where
`ExpressionNode extends StatementNode`). -/
inductive Node where
  | errorN (message : String)
  | noop
  | varDecl (isConst : Bool) (variableNode : VariableN)
  | importN (defaultName : Option String) (namespaceName : Option String)
      (objects : Option (List ImportObj)) (fromFile : String)
  | exportN (defaultValue : Option Node) (varDeclNode : Option Node)
      (fromFileName : Option String) (fromAllExports : Bool)
      (fromNamedExports : List ExportAs)
  | block (statements : List Node)
  | ret (returnValue : Option Node)
  | ifN (condition : Node) (thenStatement : Node) (elseStatement : Option Node)
  | whileN (condition : Node) (loop : Node)
  | throwN (value : Node)
  | tryCatch (tryBlock : Node) (catchBlock : Node) (catchErrorName : Option String)
      (finallyBlock : Option Node)
  | lit (l : Lit)
  | load (varName : String)
  | parens (expression : Node)
  | spread (value : Node)
  | arr (elements : List Node)
  | objN (fields : List ObjField)
  | func (parameters : List VariableN) (body : Node)
  | unary (opType : String) (expr : Node)
  | incDec (preOp : Bool) (opType : String) (expr : Node)
  | binop (left : Node) (opType : String) (right : Node)
  | assign (left : Node) (opType : String) (right : Node)
  | ternary (condition : Node) (thenExpr : Node) (elseExpr : Node)
  | arrAccess (object : Node) (index : Node)
  | fieldAccess (object : Node) (field : String)
  | funcCall (object : Node) (args : List Node)
  | methodCall (object : Node) (fieldName : String) (args : List Node)
  | newN (className : String) (args : List Node)
  | typeofN (expr : Node)
  | html (tagName : Option String) (attributes : List (String × Node))
      (children : List Node)
  | htmlExpr (expr : Node)
  | htmlText (text : String)
  | templateStr (parts : List Node)
  | templateContent (content : String)

/-- `VariableNode`: `variableType`, `left` and `defaultValue` fused into one
constructor per `IVariableNodeType`.  In the array case a `none` entry is the
`null` hole pushed for an empty slot. -/
inductive VariableN where
  | ident (name : String) (defaultValue : Option Node)
  | destructureArr (left : List (Option DestrVal)) (defaultValue : Option Node)
  | destructureObj (left : List DestrVal) (defaultValue : Option Node)

/-- `IDestructuredValue`. -/
inductive DestrVal where
  | mk (name : String) (defaultValue : Option Node) (isRest : Bool)

/-- `IObjectField` with its three `IObjectFieldType` shapes. -/
inductive ObjField where
  | regular (key : String) (value : Option Node)
  | dynamic (key : Node) (value : Node)
  | spreadF (value : Node)

end

/-- Name of a destructured value. -/
def DestrVal.name : DestrVal → String
  | .mk n _ _ => n

/-- Default expression of a destructured value. -/
def DestrVal.defaultValue : DestrVal → Option Node
  | .mk _ d _ => d

/-- Rest flag of a destructured value. -/
def DestrVal.isRest : DestrVal → Bool
  | .mk _ _ r => r

/-- `defaultValue` field shared by the three `VariableNode` shapes. -/
def VariableN.defaultValue : VariableN → Option Node
  | .ident _ d => d
  | .destructureArr _ d => d
  | .destructureObj _ d => d

/-- Runtime values: the dynamic sum produced by evaluation.  A closure value
is `FuncClosure.func` together with the data `generateClosure` stores on the
closure (captured scope snapshot, parameter list, body); `retEx` is a
first-class `ReturnValueException` object (it becomes one when a `try/catch`
binds it); `hostErr` is a host `Error`; `htmlElem` and `hostObj` stand for the
opaque external `HtmlElement` and `new global[className](...)` results. -/
inductive Value where
  | undef
  | null
  | bool (b : Bool)
  | num (n : Int)
  | str (s : String)
  | arr (elements : List Value)
  | obj (fields : List (String × Value))
  | closure (scope : List (String × Value)) (parameters : List VariableN) (body : Node)
  | retEx (payload : Value)
  | hostErr (message : String)
  | htmlElem (tagOrComp : Value) (attributes : List (String × Value))
      (children : List Value)
  | hostObj (className : String) (args : List Value)

/-- One scope frame: a JavaScript dictionary as an insertion-ordered
association list. -/
abbrev Scope := List (String × Value)

/-- Reading `frame[name]`: `undefined` when the key is absent. -/
def scopeGet (sc : Scope) (name : String) : Value :=
  match sc.find? (fun p => p.1 = name) with
  | some p => p.2
  | none => (.undef)

/-- The Javascript `name in frame` test (distinguishes a key bound to
`undefined` from an absent key, exactly as `setLocal` relies on). -/
def scopeHas (sc : Scope) (name : String) : Bool :=
  sc.any (fun p => p.1 = name)

/-- Writing `frame[name] = v`: overwrite in place, else append (JavaScript
dictionary insertion order). -/
def scopeSet (sc : Scope) (name : String) (v : Value) : Scope :=
  match sc with
  | [] => [(name, v)]
  | p :: rest =>
    if p.1 = name then (name, v) :: rest else p :: scopeSet rest name v

/-- JavaScript truthiness. -/
def truthy : Value → Bool
  | .undef => false
  | .null => false
  | .bool b => b
  | .num n => n != 0
  | .str s => s ≠ ""
  | _ => true

/-- The `Runtime`'s mutable fields: `global`, the scope stack (innermost frame
first; the source keeps the innermost at the array's end), and the closure
stack.  The interpreter never reads the closures held on the stack (only
`stackTop` would, and no AST node calls it), so the stack is modelled by its
depth. -/
structure State where
  global : Scope
  scopes : List Scope
  stack : Nat

/-- `Runtime.pushScope(scope?)`. -/
def pushScope (sc : Option Scope) (s : State) : State :=
  { s with scopes := sc.getD [] :: s.scopes }

/-- `Runtime.popScope()`. -/
def popScope (s : State) : State :=
  { s with scopes := s.scopes.tail }

/-- `Runtime.getScope()` (the innermost frame; `[]` stands for the undefined
result on an empty stack, which the source never reaches). -/
def getScopeTop (s : State) : Scope :=
  s.scopes.headD []

/-- Replace the innermost frame (the effect of `runtime.getScope()[name] = v`).
On an empty scope stack the write is lost, mirroring that the source would
crash there; no evaluation below reaches that case. -/
def setTopScope (s : State) (name : String) (v : Value) : State :=
  match s.scopes with
  | [] => s
  | sc :: rest => { s with scopes := scopeSet sc name v :: rest }

/-- `Runtime.getFullScope()`: flatten outermost-to-innermost, inner frames
overwriting outer bindings. -/
def getFullScope (s : State) : Scope :=
  s.scopes.reverse.foldl (fun acc sc => sc.foldl (fun a p => scopeSet a p.1 p.2) acc) []

/-- `Runtime.getLocal(name)`: walk the scope stack innermost-first and return
the first frame whose *value* at `name` is not `undefined` (so a binding whose
value is `undefined` is skipped); fall back to `global[name]` when truthy. -/
def getLocal (s : State) (name : String) : Value :=
  match s.scopes.find? (fun sc => !(scopeGet sc name matches .undef)) with
  | some sc => scopeGet sc name
  | none =>
    let g := scopeGet s.global name
    if truthy g then g else (.undef)

/-- `Runtime.setLocal(name, value)`: write into the innermost frame in which
`name` is a key (`name in frame`); silently drop the write when no frame has
the key. -/
def setLocalList : List Scope → String → Value → List Scope
  | [], _, _ => []
  | sc :: rest, name, v =>
    if scopeHas sc name then scopeSet sc name v :: rest
    else sc :: setLocalList rest name v

/-- `Runtime.setLocal` on a full state. -/
def setLocal (s : State) (name : String) (v : Value) : State :=
  { s with scopes := setLocalList s.scopes name v }

/-! ### Lexer -/

/-- The single-quote character (written by code point throughout). -/
def quoteCh : Char := Char.ofNat 39

/-- A String holding one single quote. -/
def sq : String := String.singleton quoteCh

/-- The backtick character. -/
def backtickCh : Char := Char.ofNat 96

/-- Token payloads (`IToken.value`). -/
inductive TokValue where
  | str (s : String)
  | num (n : Int)
  | bool (b : Bool)
  | null
  | undef
deriving DecidableEq, Repr

/-- `IToken`.  `position` is `-1` until the scanner records a start. -/
structure Token where
  ttype : String
  tvalue : TokValue
  position : Int
deriving DecidableEq, Repr

/-- `ParserError`, kept as the raw position plus the reason (the source
additionally renders line/column into the message text). -/
structure PError where
  position : Int
  message : String
deriving DecidableEq, Repr

/-- The closed symbol set (braces written as code points). -/
def symbols : List String :=
  ["=>", "...", String.singleton backtickCh, "$\x7b", "</", "/>", "<", ">",
   "(", ")", "[", "]", "\x7b", "\x7d", ",", ".", "?", ":", ";"]

/-- The closed operator set, in source order (longest first per family). -/
def operators : List String :=
  ["+=", "-=", "*=", "/=", "++", "--", "&&", "||", "===", "==", "=",
   "!==", "!=", ">=", "<=", "+", "-", "*", "/", "!"]

/-- The keyword set. -/
def keywords : List String :=
  ["const", "let", "return", "new", "if", "else", "while", "try", "catch",
   "finally", "throw", "typeof", "export", "default", "expose", "import",
   "from", "as"]

def isAlpha (c : Char) : Bool :=
  ('a' ≤ c && c ≤ 'z') || ('A' ≤ c && c ≤ 'Z') || c = '_'

def isDigit (c : Char) : Bool :=
  '0' ≤ c && c ≤ '9'

def isWhite (c : Char) : Bool :=
  c = ' ' || c = '\t' || c = '\n'

/-- `symbols.find(symbol => symbol[0] === cur)`. -/
def symInitial (c : Char) : Bool :=
  symbols.any (fun s => s.data.headD ' ' = c)

/-- `operators.find(op => op[0] === cur)`. -/
def opInitial (c : Char) : Bool :=
  operators.any (fun s => s.data.headD ' ' = c)

/-- `parseInt` on a digit string. -/
def parseIntDec (s : String) : Int :=
  s.data.foldl (fun a c => a * 10 + ((c.toNat - '0'.toNat : Nat) : Int)) 0

/-- `parseFloat` on `int.frac`, truncated to its integer part (floats are out
of the embedding's scope and never appear in the verified programs). -/
def parseFloatTrunc (s : String) : Int :=
  parseIntDec (String.mk (s.data.takeWhile (fun c => c ≠ '.')))

/-- The scanning loop of `createSymbol`: extend the prefix while at least one
candidate still matches; returns the final prefix, surviving candidates and
position. -/
def createSymGo : Nat → List Char → Nat → List String → String → (String × List String × Nat)
  | 0, _, pos, valid, curTok => (curTok, valid, pos)
  | rem + 1, input, pos, valid, curTok =>
    if 1 ≤ valid.length ∧ pos < input.length ∧ isWhite (input.getD pos ' ') = false then
      let cur := input.getD pos ' '
      let filtered := valid.filter (fun sym => (curTok.push cur).data.isPrefixOf sym.data)
      if filtered.isEmpty then (curTok, valid, pos)
      else createSymGo rem input (pos + 1) filtered (curTok.push cur)
    else (curTok, valid, pos)

/-- `createSymbol`: longest-match against a candidate list, with the
*unrecognised token* failure when no exact candidate remains. -/
def createSymbol (input : List Char) (pos : Nat) (list : List String)
    (overrideType : Option String) : Except PError (Token × Nat) :=
  let start := pos
  let r := createSymGo (input.length + 1) input pos list ""
  if r.2.1.contains r.1 then
    .ok ({ ttype := overrideType.getD r.1, tvalue := .str r.1, position := (start : Int) }, r.2.2)
  else
    .error ⟨(start : Int), "Unrecognised token " ++ sq ++ r.1 ++ sq⟩

/-- `createSingleLineComment`: consume through end-of-line (newline not
consumed). -/
def singleCommentGo : Nat → List Char → Nat → String → (String × Nat)
  | 0, _, pos, acc => (acc, pos)
  | rem + 1, input, pos, acc =>
    if pos < input.length ∧ input.getD pos ' ' ≠ '\n' then
      singleCommentGo rem input (pos + 1) (acc.push (input.getD pos ' '))
    else (acc, pos)

/-- `createMultiLineComment`'s scan: position just after the closing `*/`, or
`none` when the comment is unterminated. -/
def multiCommentGo : Nat → List Char → Nat → Option Nat
  | 0, _, _ => none
  | rem + 1, input, pos =>
    if pos < input.length then
      let cur := input.getD pos ' '
      let nxt : Option Char :=
        if pos + 1 < input.length then some (input.getD (pos + 1) ' ') else none
      if cur = '*' ∧ nxt = some '/' then some (pos + 2)
      else multiCommentGo rem input (pos + 1)
    else none

/-- The scanner states of `nextWithComments` (its `type` variable). -/
inductive Phase where
  | start
  | ident
  | integer
  | float
  | strSingle
  | strDouble
deriving DecidableEq

/-- The character loop of `nextWithComments`.  Returns the token (or `none`
when the input is exhausted, as the source falls off its loop returning
`undefined`) and the final `currentPosition`.  Note the faithful reproduction
of the source's `switch` fall-through from the single-quote case into the
double-quote case: a double quote also terminates a single-quoted string. -/
def lexLoop : Nat → List Char → Nat → Phase → String → Int → Except PError (Option Token × Nat)
  | 0, _, pos, _, _, _ => .ok (none, pos)
  | rem + 1, input, pos, phase, curTok, start =>
    if pos < input.length then
      let cur := input.getD pos ' '
      let nxt : Option Char :=
        if pos + 1 < input.length then some (input.getD (pos + 1) ' ') else none
      match phase with
      | .start =>
        if cur = '/' ∧ nxt = some '/' then
          let r := singleCommentGo (input.length + 1) input pos ""
          .ok (some ⟨"singleComment", .str r.1, (pos : Int)⟩, r.2)
        else if cur = '/' ∧ nxt = some '*' then
          match multiCommentGo (input.length + 1) input pos with
          | some pos' => .ok (some ⟨"multiComment", .str "", (pos : Int)⟩, pos')
          | none => .error ⟨(input.length : Int), "Unclosed comment"⟩
        else if isAlpha cur then
          lexLoop rem input (pos + 1) .ident (String.singleton cur) (pos : Int)
        else if isDigit cur then
          lexLoop rem input (pos + 1) .integer (String.singleton cur) (pos : Int)
        else if cur = '=' then
          if pos + 1 < input.length ∧ input.getD (pos + 1) ' ' = '>' then
            .ok (some ⟨"=>", .str "", (pos : Int)⟩, pos + 2)
          else
            (createSymbol input pos operators (some "operator")).map
              (fun r => (some r.1, r.2))
        else if symInitial cur then
          (createSymbol input pos symbols none).map (fun r => (some r.1, r.2))
        else if opInitial cur then
          (createSymbol input pos operators (some "operator")).map
            (fun r => (some r.1, r.2))
        else if cur = quoteCh then
          lexLoop rem input (pos + 1) .strSingle (String.singleton cur) (pos : Int)
        else if cur = '"' then
          lexLoop rem input (pos + 1) .strDouble (String.singleton cur) (pos : Int)
        else if isWhite cur then
          lexLoop rem input (pos + 1) .start curTok start
        else
          .error ⟨(pos : Int), "Invalid character " ++ sq ++ String.singleton cur ++ sq⟩
      | .ident =>
        if isAlpha cur = false ∧ isDigit cur = false then
          if curTok = "true" then .ok (some ⟨"true", .bool true, start⟩, pos)
          else if curTok = "false" then .ok (some ⟨"false", .bool false, start⟩, pos)
          else if curTok = "null" then .ok (some ⟨"null", .null, start⟩, pos)
          else if curTok = "undefined" then .ok (some ⟨"undefined", .undef, start⟩, pos)
          else if keywords.contains curTok then .ok (some ⟨curTok, .str curTok, start⟩, pos)
          else .ok (some ⟨"identifier", .str curTok, start⟩, pos)
        else lexLoop rem input (pos + 1) .ident (curTok.push cur) start
      | .integer =>
        if cur = '.' then
          lexLoop rem input (pos + 1) .float (curTok.push cur) start
        else if isDigit cur = false then
          .ok (some ⟨"number", .num (parseIntDec curTok), start⟩, pos)
        else lexLoop rem input (pos + 1) .integer (curTok.push cur) start
      | .float =>
        if isDigit cur = false then
          .ok (some ⟨"number", .num (parseFloatTrunc curTok), start⟩, pos)
        else lexLoop rem input (pos + 1) .float (curTok.push cur) start
      | .strSingle =>
        if cur = quoteCh ∨ cur = '"' then
          .ok (some ⟨"string", .str (curTok.drop 1), start⟩, pos + 1)
        else lexLoop rem input (pos + 1) .strSingle (curTok.push cur) start
      | .strDouble =>
        if cur = '"' then
          .ok (some ⟨"string", .str (curTok.drop 1), start⟩, pos + 1)
        else lexLoop rem input (pos + 1) .strDouble (curTok.push cur) start
    else .ok (none, pos)

/-- `nextWithComments` from a given position. -/
def lexNW (input : List Char) (pos : Nat) : Except PError (Option Token × Nat) :=
  lexLoop (input.length + 1) input pos .start "" (-1)

/-- `next()`: skip comment tokens.  Also returns the `lastPosition` recorded
at the entry of the last `nextWithComments` call. -/
def nextGo : Nat → List Char → Nat → Except PError (Option Token × Nat × Nat)
  | 0, _, pos => .ok (none, pos, pos)
  | rem + 1, input, pos =>
    match lexNW input pos with
    | .error e => .error e
    | .ok (some t, pos') =>
      if t.ttype = "singleComment" ∨ t.ttype = "multiComment" then
        nextGo rem input pos'
      else .ok (some t, pos', pos)
    | .ok (none, pos') => .ok (none, pos', pos)

/-- The `Lexer`'s mutable fields. -/
structure LexState where
  input : List Char
  currentPosition : Nat
  lastPeekedToken : Option Token
  lastPosition : Nat
deriving Repr

/-- The `Lexer` constructor (appends one space to the input). -/
def mkLexer (s : String) : LexState :=
  ⟨(s ++ " ").data, 0, none, 0⟩

/-- `next()` on a lexer state (does not touch the peek cache). -/
def lexNextTok (lx : LexState) : Except PError (Option Token × LexState) :=
  match nextGo (lx.input.length + 1) lx.input lx.currentPosition with
  | .error e => .error e
  | .ok (t?, pos', lastP) =>
    .ok (t?, { lx with currentPosition := pos', lastPosition := lastP })

/-- The expected/got message of `consume`. -/
def expectedMsg (t got : String) : String :=
  "Expected " ++ sq ++ t ++ sq ++ ", got " ++ sq ++ got ++ sq

/-- `peek(type?)`. -/
def lexPeek (t? : Option String) (lx : LexState) : Except PError (Option Token × LexState) :=
  let r : Except PError (Option Token × LexState) :=
    match lx.lastPeekedToken with
    | some tok => .ok (some tok, lx)
    | none =>
      match lexNextTok lx with
      | .error e => .error e
      | .ok (tk?, lx') => .ok (tk?, { lx' with lastPeekedToken := tk? })
  match r with
  | .error e => .error e
  | .ok (tk?, lx') =>
    match t? with
    | none => .ok (tk?, lx')
    | some t =>
      match tk? with
      | some tok => if tok.ttype = t then .ok (some tok, lx') else .ok (none, lx')
      | none => .ok (none, lx')

/-- `consume(type?)`. -/
def lexConsume (t? : Option String) (lx : LexState) : Except PError (Option Token × LexState) :=
  let r : Except PError (Option Token × LexState) :=
    match lx.lastPeekedToken with
    | some tok => .ok (some tok, lx)
    | none => lexNextTok lx
  match r with
  | .error e => .error e
  | .ok (tk?, lx₁) =>
    let lx₂ := { lx₁ with lastPeekedToken := none }
    match t? with
    | none => .ok (tk?, lx₂)
    | some t =>
      match tk? with
      | some tok =>
        if tok.ttype = t then .ok (some tok, lx₂)
        else .error ⟨tok.position, expectedMsg t tok.ttype⟩
      | none => .error ⟨(lx₂.currentPosition : Int), expectedMsg t "end of string"⟩

/-- `consume(type)` at a call site that reads `.value` (guaranteed a token on
success, since a missing token raises the *expected, got end of string*
error). -/
def lexConsumeT (t : String) (lx : LexState) : Except PError (Token × LexState) :=
  match lexConsume (some t) lx with
  | .error e => .error e
  | .ok (some tok, lx') => .ok (tok, lx')
  | .ok (none, lx') => .error ⟨(lx'.currentPosition : Int), expectedMsg t "end of string"⟩

/-- `peekOperator(op)`. -/
def lexPeekOperator (op : String) (lx : LexState) : Except PError (Option Token × LexState) :=
  match lexPeek (some "operator") lx with
  | .error e => .error e
  | .ok (some tok, lx') =>
    if tok.tvalue = .str op then .ok (some tok, lx') else .ok (none, lx')
  | .ok (none, lx') => .ok (none, lx')

/-- `consumeOperator(op)`. -/
def lexConsumeOperator (op : String) (lx : LexState) : Except PError (Token × LexState) :=
  match lexConsumeT "operator" lx with
  | .error e => .error e
  | .ok (tok, lx') =>
    if tok.tvalue = .str op then .ok (tok, lx')
    else .error ⟨tok.position, "Expected " ++ sq ++ op ++ sq⟩

/-- `consumeIdentifier(ident)`. -/
def lexConsumeIdentifier (ident : String) (lx : LexState) : Except PError (Token × LexState) :=
  match lexConsumeT "identifier" lx with
  | .error e => .error e
  | .ok (tok, lx') =>
    if tok.tvalue = .str ident then .ok (tok, lx')
    else .error ⟨tok.position, "Expected " ++ sq ++ ident ++ sq⟩

/-- `revert(position)`. -/
def lexRevert (p : Nat) (lx : LexState) : LexState :=
  { lx with lastPeekedToken := none, currentPosition := p }

/-- Whether one of the terminator strings occurs at `pos`. -/
def closerAt (input : List Char) (pos : Nat) (close : List String) : Bool :=
  close.any (fun c => c.data.isPrefixOf (input.drop pos))

/-- The scan of `getUntil`. -/
def getUntilGo : Nat → List Char → Nat → List String → String → Except PError (String × Nat)
  | 0, input, _, _, _ => .error ⟨(input.length : Int), "Unexpected end of string"⟩
  | rem + 1, input, pos, close, acc =>
    if pos < input.length then
      if closerAt input pos close then .ok (acc, pos)
      else getUntilGo rem input (pos + 1) close (acc.push (input.getD pos ' '))
    else .error ⟨(input.length : Int), "Unexpected end of string"⟩

/-- `getUntil(close, from?)`: note the source's `if (from)` treats a zero
`from` as absent. -/
def lexGetUntil (close : List String) (fromP : Option Nat) (lx : LexState) :
    Except PError (Token × LexState) :=
  let pos0 :=
    match fromP with
    | some f => if f ≠ 0 then f else lx.currentPosition
    | none => lx.currentPosition
  match getUntilGo (lx.input.length + 1) lx.input pos0 close "" with
  | .error e => .error e
  | .ok (acc, pos') =>
    .ok (⟨"string", .str acc, (pos0 : Int)⟩,
      { lx with lastPeekedToken := none, currentPosition := pos' })

/-! ### Parser

The parser's mutable state is the lexer plus `blockDepth`.  A parse step
yields `none` when the fuel for the mutual recursion runs out, otherwise
either a `ParserError` or a value, each together with the parser state at that
point (errors carry the state because the source's `this.blockDepth` and lexer
are not rolled back by a `throw`; `parsePrimary`'s catch resumes from such a
state after reverting the lexer). -/

structure PState where
  lex : LexState
  blockDepth : Nat

/-- Result of a fueled parse step. -/
abbrev PRes (α : Type) := Option (Except (PError × PState) (α × PState))

def pok {α : Type} (a : α) (st : PState) : PRes α := some (.ok (a, st))

def perr {α : Type} (pos : Int) (msg : String) (st : PState) : PRes α :=
  some (.error (⟨pos, msg⟩, st))

/-- Bind a lexer-level step (which cannot run out of fuel). -/
def pthen {α β : Type} (x : Except (PError × PState) (α × PState))
    (f : α → PState → PRes β) : PRes β :=
  match x with
  | .error e => some (.error e)
  | .ok (a, st) => f a st

/-- Bind a fueled parse step. -/
def pbind {α β : Type} (x : PRes α) (f : α → PState → PRes β) : PRes β :=
  match x with
  | none => none
  | some (.error e) => some (.error e)
  | some (.ok (a, st)) => f a st

def pPeek (t? : Option String) (st : PState) :
    Except (PError × PState) (Option Token × PState) :=
  match lexPeek t? st.lex with
  | .error e => .error (e, st)
  | .ok (tk?, lx) => .ok (tk?, { st with lex := lx })

def pConsume (t? : Option String) (st : PState) :
    Except (PError × PState) (Option Token × PState) :=
  match lexConsume t? st.lex with
  | .error e => .error (e, st)
  | .ok (tk?, lx) => .ok (tk?, { st with lex := lx })

def pConsumeT (t : String) (st : PState) : Except (PError × PState) (Token × PState) :=
  match lexConsumeT t st.lex with
  | .error e => .error (e, st)
  | .ok (tok, lx) => .ok (tok, { st with lex := lx })

def pPeekOp (op : String) (st : PState) :
    Except (PError × PState) (Option Token × PState) :=
  match lexPeekOperator op st.lex with
  | .error e => .error (e, st)
  | .ok (tk?, lx) => .ok (tk?, { st with lex := lx })

def pConsumeOp (op : String) (st : PState) : Except (PError × PState) (Token × PState) :=
  match lexConsumeOperator op st.lex with
  | .error e => .error (e, st)
  | .ok (tok, lx) => .ok (tok, { st with lex := lx })

def pConsumeIdent (ident : String) (st : PState) :
    Except (PError × PState) (Token × PState) :=
  match lexConsumeIdentifier ident st.lex with
  | .error e => .error (e, st)
  | .ok (tok, lx) => .ok (tok, { st with lex := lx })

def pGetUntil (close : List String) (fromP : Option Nat) (st : PState) :
    Except (PError × PState) (Token × PState) :=
  match lexGetUntil close fromP st.lex with
  | .error e => .error (e, st)
  | .ok (tok, lx) => .ok (tok, { st with lex := lx })

/-- The string inside a token value (`value as string` casts). -/
def tokStr : TokValue → String
  | .str s => s
  | _ => ""

/-- String value of a possibly absent token (call sites are guarded by a
previous successful peek). -/
def strOfOpt (t? : Option Token) : String :=
  match t? with
  | some t => tokStr t.tvalue
  | none => ""

/-- `validOperators.includes(op.value)`. -/
def valueIs (tv : TokValue) (ops : List String) : Bool :=
  match tv with
  | .str s => ops.contains s
  | _ => false

/-- `parseBinaryExpression`: one left operand, at most ONE operator of the
level and one right operand — it does not loop. -/
def parseBinExpr (sub : PState → PRes Node) (validOps : List String)
    (st : PState) : PRes Node :=
  pbind (sub st) fun left st₁ =>
  pthen (pPeek none st₁) fun op? st₂ =>
  match op? with
  | some op =>
    if valueIs op.tvalue validOps || validOps.contains op.ttype then
      pthen (pConsume none st₂) fun _ st₃ =>
      pbind (sub st₃) fun right st₄ =>
      pok (.binop left (tokStr op.tvalue) right) st₄
    else pok left st₂
  | none => pok left st₂

/-- Association-list overwrite used for HTML attribute dictionaries. -/
def attrSet (l : List (String × Node)) (name : String) (nd : Node) : List (String × Node) :=
  match l with
  | [] => [(name, nd)]
  | p :: rest => if p.1 = name then (name, nd) :: rest else p :: attrSet rest name nd

mutual

/-- `parseStatement` (the `switchTokenType` dispatch). -/
def pStatement : Nat → PState → PRes Node
  | 0, _ => none
  | fuel + 1, st =>
    pthen (pPeek none st) fun tk? st₁ =>
    match tk? with
    | some tok =>
      match tok.ttype with
      | "const" => pVarDecl fuel true st₁
      | "let" => pVarDecl fuel false st₁
      | "\x7b" => pBlock fuel st₁
      | "if" => pIf fuel st₁
      | "while" => pWhile fuel st₁
      | "return" => pReturn fuel st₁
      | "throw" => pThrow fuel st₁
      | "try" => pTryCatch fuel st₁
      | "import" => pImport fuel st₁
      | "export" => pExport fuel st₁
      | ";" =>
        pthen (pConsumeT ";" st₁) fun _ st₂ => pok .noop st₂
      | _ =>
        pbind (pExpressionP fuel st₁) fun e st₂ =>
        pthen (pConsumeT ";" st₂) fun _ st₃ => pok e st₃
    | none =>
      pbind (pExpressionP fuel st₁) fun e st₂ =>
      pthen (pConsumeT ";" st₂) fun _ st₃ => pok e st₃
termination_by structural f _ => f

/-- `parseExpression = () => this.parseAssignment()`. -/
def pExpressionP : Nat → PState → PRes Node
  | 0, _ => none
  | fuel + 1, st => pAssignment fuel st
termination_by structural f _ => f

/-- `parseVarDecl`. -/
def pVarDecl : Nat → Bool → PState → PRes Node
  | 0, _, _ => none
  | fuel + 1, isConst, st =>
    pthen (pConsumeT (if isConst then "const" else "let") st) fun _ st₁ =>
    pbind (pVariable fuel false st₁) fun v st₂ =>
    pthen (pConsumeT ";" st₂) fun _ st₃ =>
    pok (.varDecl isConst v) st₃
termination_by structural f _ _ => f

/-- `parseVariable`. -/
def pVariable : Nat → Bool → PState → PRes VariableN
  | 0, _, _ => none
  | fuel + 1, mustBeIdent, st =>
    if mustBeIdent then
      pthen (pConsumeT "identifier" st) fun tok st₁ =>
      pVariableTail fuel (fun d => .ident (tokStr tok.tvalue) d) st₁
    else
      pthen (pPeek (some "[") st) fun ob? st₁ =>
      match ob? with
      | some _ =>
        pbind (pDestructure fuel "[" "]" st₁) fun vals st₂ =>
        pVariableTail fuel (fun d => .destructureArr vals d) st₂
      | none =>
        pthen (pPeek (some "\x7b") st₁) fun cb? st₂ =>
        match cb? with
        | some _ =>
          pbind (pDestructure fuel "\x7b" "\x7d" st₂) fun vals st₃ =>
          pVariableTail fuel (fun d => .destructureObj (vals.filterMap id) d) st₃
        | none =>
          pthen (pConsumeT "identifier" st₂) fun tok st₃ =>
          pVariableTail fuel (fun d => .ident (tokStr tok.tvalue) d) st₃
termination_by structural f _ _ => f

/-- The shared `if (this.lexer.peekOperator('=')) { ... }` tail of
`parseVariable`. -/
def pVariableTail : Nat → (Option Node → VariableN) → PState → PRes VariableN
  | 0, _, _ => none
  | fuel + 1, mk, st =>
    pthen (pPeekOp "=" st) fun eq? st₁ =>
    match eq? with
    | some _ =>
      pthen (pConsume none st₁) fun _ st₂ =>
      pbind (pExpressionP fuel st₂) fun d st₃ =>
      pok (mk (some d)) st₃
    | none => pok (mk none) st₁
termination_by structural f _ _ => f

/-- The `destructure` helper inside `parseVariable`: consume the opening
symbol, the comma-separated element list (with holes and a rest marker) and
the closing symbol. -/
def pDestructure : Nat → String → String → PState → PRes (List (Option DestrVal))
  | 0, _, _, _ => none
  | fuel + 1, openS, closeS, st =>
    pthen (pConsumeT openS st) fun _ st₁ =>
    pthen (pPeek (some closeS) st₁) fun cl? st₂ =>
    match cl? with
    | some _ =>
      pthen (pConsumeT closeS st₂) fun _ st₃ => pok [] st₃
    | none =>
      pbind (pDestrOne fuel (openS = "[") none st₂) fun v st₃ =>
      pbind (pDestrList fuel (openS = "[") v.2 [v.1] st₃) fun vals st₄ =>
      pthen (pConsumeT closeS st₄) fun _ st₅ => pok vals st₅
termination_by structural f _ _ _ => f

/-- One `parseValue` call of the destructure loop.  Returns the parsed entry
(`none` is a hole) and the updated `foundRest` position. -/
def pDestrOne : Nat → Bool → Option Int → PState → PRes (Option DestrVal × Option Int)
  | 0, _, _, _ => none
  | fuel + 1, isArr, foundRest, st =>
    match foundRest with
    | some p => perr p "Cannot destructure more values after rest value" st
    | none =>
      pthen (pPeek (some "...") st) fun rest? st₁ =>
      match rest? with
      | some tok =>
        pthen (pConsume none st₁) fun _ st₂ =>
        pDestrOneTail fuel isArr (some tok.position) st₂
      | none => pDestrOneTail fuel isArr none st₁
termination_by structural f _ _ _ => f

/-- The element after the optional `...` marker. -/
def pDestrOneTail : Nat → Bool → Option Int → PState → PRes (Option DestrVal × Option Int)
  | 0, _, _, _ => none
  | fuel + 1, isArr, foundRest, st =>
    if isArr then
      pthen (pPeek (some ",") st) fun comma? st₁ =>
      match comma? with
      | some _ => pok (none, foundRest) st₁
      | none =>
        pbind (pDestrValue fuel foundRest.isSome st₁) fun dv st₂ =>
        pok (some dv, foundRest) st₂
    else
      pbind (pDestrValue fuel foundRest.isSome st) fun dv st₁ =>
      pok (some dv, foundRest) st₁
termination_by structural f _ _ _ => f

/-- The `while (this.lexer.peek(','))` part of the destructure loop. -/
def pDestrList : Nat → Bool → Option Int → List (Option DestrVal) → PState →
    PRes (List (Option DestrVal))
  | 0, _, _, _, _ => none
  | fuel + 1, isArr, foundRest, acc, st =>
    pthen (pPeek (some ",") st) fun comma? st₁ =>
    match comma? with
    | none => pok acc st₁
    | some _ =>
      pthen (pConsume none st₁) fun _ st₂ =>
      pbind (pDestrOne fuel isArr foundRest st₂) fun v st₃ =>
      pDestrList fuel isArr v.2 (acc ++ [v.1]) st₃
termination_by structural f _ _ _ _ => f

/-- `parseDestructuredValue`. -/
def pDestrValue : Nat → Bool → PState → PRes DestrVal
  | 0, _, _ => none
  | fuel + 1, isRest, st =>
    pthen (pConsumeT "identifier" st) fun tok st₁ =>
    if isRest = false then
      pthen (pPeekOp "=" st₁) fun eq? st₂ =>
      match eq? with
      | some _ =>
        pthen (pConsume none st₂) fun _ st₃ =>
        pbind (pExpressionP fuel st₃) fun d st₄ =>
        pok (.mk (tokStr tok.tvalue) (some d) isRest) st₄
      | none => pok (.mk (tokStr tok.tvalue) none isRest) st₂
    else pok (.mk (tokStr tok.tvalue) none isRest) st₁
termination_by structural f _ _ => f

/-- `parseBlock` (with the `blockDepth` bracket). -/
def pBlock : Nat → PState → PRes Node
  | 0, _ => none
  | fuel + 1, st =>
    pthen (pConsumeT "\x7b" st) fun _ st₁ =>
    let st₂ := { st₁ with blockDepth := st₁.blockDepth + 1 }
    pbind (pBlockStmts fuel [] st₂) fun stmts st₃ =>
    let st₄ := { st₃ with blockDepth := st₃.blockDepth - 1 }
    pthen (pConsumeT "\x7d" st₄) fun _ st₅ =>
    pok (.block stmts) st₅
termination_by structural f _ => f

/-- `while (!this.lexer.peek('}'))` of `parseBlock`. -/
def pBlockStmts : Nat → List Node → PState → PRes (List Node)
  | 0, _, _ => none
  | fuel + 1, acc, st =>
    pthen (pPeek (some "\x7d") st) fun cb? st₁ =>
    match cb? with
    | some _ => pok acc st₁
    | none =>
      pbind (pStatement fuel st₁) fun n st₂ =>
      pBlockStmts fuel (acc ++ [n]) st₂
termination_by structural f _ _ => f

/-- `parseReturn`. -/
def pReturn : Nat → PState → PRes Node
  | 0, _ => none
  | fuel + 1, st =>
    pthen (pConsumeT "return" st) fun _ st₁ =>
    pthen (pPeek (some ";") st₁) fun sc? st₂ =>
    match sc? with
    | some _ =>
      pthen (pConsumeT ";" st₂) fun _ st₃ => pok (.ret none) st₃
    | none =>
      pbind (pExpressionP fuel st₂) fun v st₃ =>
      pthen (pConsumeT ";" st₃) fun _ st₄ => pok (.ret (some v)) st₄
termination_by structural f _ => f

/-- `parseIf`. -/
def pIf : Nat → PState → PRes Node
  | 0, _ => none
  | fuel + 1, st =>
    pthen (pConsumeT "if" st) fun _ st₁ =>
    pthen (pConsumeT "(" st₁) fun _ st₂ =>
    pbind (pExpressionP fuel st₂) fun c st₃ =>
    pthen (pConsumeT ")" st₃) fun _ st₄ =>
    pbind (pStatement fuel st₄) fun t st₅ =>
    pthen (pPeek (some "else") st₅) fun el? st₆ =>
    match el? with
    | some _ =>
      pthen (pConsume none st₆) fun _ st₇ =>
      pbind (pStatement fuel st₇) fun e st₈ =>
      pok (.ifN c t (some e)) st₈
    | none => pok (.ifN c t none) st₆
termination_by structural f _ => f

/-- `parseWhile`. -/
def pWhile : Nat → PState → PRes Node
  | 0, _ => none
  | fuel + 1, st =>
    pthen (pConsumeT "while" st) fun _ st₁ =>
    pthen (pConsumeT "(" st₁) fun _ st₂ =>
    pbind (pExpressionP fuel st₂) fun c st₃ =>
    pthen (pConsumeT ")" st₃) fun _ st₄ =>
    pbind (pStatement fuel st₄) fun b st₅ =>
    pok (.whileN c b) st₅
termination_by structural f _ => f

/-- `parseTryCatch`. -/
def pTryCatch : Nat → PState → PRes Node
  | 0, _ => none
  | fuel + 1, st =>
    pthen (pConsumeT "try" st) fun _ st₁ =>
    pbind (pBlock fuel st₁) fun tb st₂ =>
    pthen (pConsumeT "catch" st₂) fun _ st₃ =>
    pthen (pPeek (some "(") st₃) fun op? st₄ =>
    pbind
      (match op? with
       | some _ =>
         pthen (pConsumeT "(" st₄) fun _ st₅ =>
         pthen (pConsumeT "identifier" st₅) fun nameTok st₆ =>
         pthen (pConsumeT ")" st₆) fun _ st₇ =>
         pok (some (tokStr nameTok.tvalue)) st₇
       | none => pok (none : Option String) st₄)
      fun name? st₅ =>
    pbind (pBlock fuel st₅) fun cb st₆ =>
    pthen (pPeek (some "finally") st₆) fun fin? st₇ =>
    match fin? with
    | some _ =>
      pthen (pConsumeT "finally" st₇) fun _ st₈ =>
      pbind (pBlock fuel st₈) fun fb st₉ =>
      pok (.tryCatch tb cb name? (some fb)) st₉
    | none => pok (.tryCatch tb cb name? none) st₇
termination_by structural f _ => f

/-- `parseThrow` (no trailing `;` is consumed here). -/
def pThrow : Nat → PState → PRes Node
  | 0, _ => none
  | fuel + 1, st =>
    pthen (pConsumeT "throw" st) fun _ st₁ =>
    pbind (pExpressionP fuel st₁) fun v st₂ =>
    pok (.throwN v) st₂
termination_by structural f _ => f

/-- `parseImport`. -/
def pImport : Nat → PState → PRes Node
  | 0, _ => none
  | fuel + 1, st =>
    if st.blockDepth > 0 then
      perr (st.lex.lastPosition : Int) "Imports must be top level" st
    else
      pthen (pConsumeT "import" st) fun _ st₁ =>
      pthen (pPeek (some "\x7b") st₁) fun ob? st₂ =>
      match ob? with
      | some _ =>
        pthen (pConsume none st₂) fun _ st₃ =>
        pthen (pPeek (some "\x7d") st₃) fun cb? st₄ =>
        pbind
          (match cb? with
           | some _ => pok ([] : List ImportObj) st₄
           | none =>
             pbind (pImportObj fuel st₄) fun o st₅ =>
             pImportObjs fuel [o] st₅)
          fun objects st₅ =>
        pthen (pConsumeT "\x7d" st₅) fun _ st₆ =>
        pthen (pConsumeT "from" st₆) fun _ st₇ =>
        pthen (pConsumeT "string" st₇) fun f st₈ =>
        pok (.importN none none (some objects) (tokStr f.tvalue)) st₈
      | none =>
        pthen (pPeekOp "*" st₂) fun star? st₃ =>
        match star? with
        | some _ =>
          pthen (pConsume none st₃) fun _ st₄ =>
          pthen (pConsumeT "as" st₄) fun _ st₅ =>
          pthen (pConsumeT "identifier" st₅) fun ns st₆ =>
          pthen (pConsumeT "from" st₆) fun _ st₇ =>
          pthen (pConsumeT "string" st₇) fun f st₈ =>
          pok (.importN none (some (tokStr ns.tvalue)) none (tokStr f.tvalue)) st₈
        | none =>
          pthen (pPeek (some "identifier") st₃) fun id? st₄ =>
          match id? with
          | some _ =>
            pthen (pConsumeT "identifier" st₄) fun d st₅ =>
            pthen (pConsumeT "from" st₅) fun _ st₆ =>
            pthen (pConsumeT "string" st₆) fun f st₇ =>
            pok (.importN (some (tokStr d.tvalue)) none none (tokStr f.tvalue)) st₇
          | none =>
            pthen (pConsumeT "string" st₄) fun f st₅ =>
            pok (.importN none none none (tokStr f.tvalue)) st₅

/-- One `parseImportObject`. -/
def pImportObj : Nat → PState → PRes ImportObj
  | 0, _ => none
  | fuel + 1, st =>
    pthen (pConsumeT "identifier" st) fun nameTok st₁ =>
    pthen (pPeek (some "as") st₁) fun as? st₂ =>
    match as? with
    | some _ =>
      pthen (pConsume none st₂) fun _ st₃ =>
      pthen (pConsumeT "identifier" st₃) fun aliasTok st₄ =>
      pok ⟨tokStr nameTok.tvalue, some (tokStr aliasTok.tvalue)⟩ st₄
    | none => pok ⟨tokStr nameTok.tvalue, none⟩ st₂

/-- `while (this.lexer.peek(','))` of the import-object list. -/
def pImportObjs : Nat → List ImportObj → PState → PRes (List ImportObj)
  | 0, _, _ => none
  | fuel + 1, acc, st =>
    pthen (pPeek (some ",") st) fun comma? st₁ =>
    match comma? with
    | none => pok acc st₁
    | some _ =>
      pthen (pConsume none st₁) fun _ st₂ =>
      pbind (pImportObj fuel st₂) fun o st₃ =>
      pImportObjs fuel (acc ++ [o]) st₃
termination_by structural f _ _ => f

/-- `parseExport`. -/
def pExport : Nat → PState → PRes Node
  | 0, _ => none
  | fuel + 1, st =>
    if st.blockDepth > 0 then
      perr (st.lex.lastPosition : Int) "Exports must be top level" st
    else
      pthen (pConsumeT "export" st) fun _ st₁ =>
      pthen (pPeek (some "default") st₁) fun def? st₂ =>
      match def? with
      | some _ =>
        pthen (pConsume none st₂) fun _ st₃ =>
        pbind (pExpressionP fuel st₃) fun dv st₄ =>
        pthen (pConsumeT ";" st₄) fun _ st₅ =>
        pok (.exportN (some dv) none none false []) st₅
      | none =>
        pthen (pPeek (some "\x7b") st₂) fun ob? st₃ =>
        match ob? with
        | some _ =>
          pthen (pConsume none st₃) fun _ st₄ =>
          pthen (pPeek (some "\x7d") st₄) fun cb? st₅ =>
          pbind
            (match cb? with
             | some _ => pok ([] : List ExportAs) st₅
             | none =>
               pbind (pExportOne fuel st₅) fun e st₆ =>
               pExportList fuel [e] st₆)
            fun named st₆ =>
          pthen (pConsumeT "\x7d" st₆) fun _ st₇ =>
          pthen (pConsumeT "from" st₇) fun _ st₈ =>
          pthen (pConsumeT "string" st₈) fun f st₉ =>
          pok (.exportN none none (some (tokStr f.tvalue)) false named) st₉
        | none =>
          pthen (pPeekOp "*" st₃) fun star? st₄ =>
          match star? with
          | some _ =>
            pthen (pConsume none st₄) fun _ st₅ =>
            pthen (pConsumeT "from" st₅) fun _ st₆ =>
            pthen (pConsumeT "string" st₆) fun f st₇ =>
            pok (.exportN none none (some (tokStr f.tvalue)) true []) st₇
          | none =>
            pthen (pPeek (some "const") st₄) fun c? st₅ =>
            pbind (pVarDecl fuel c?.isSome st₅) fun vd st₆ =>
            pok (.exportN none (some vd) none false []) st₆
termination_by structural f _ => f

/-- One `parseNamedExport`. -/
def pExportOne : Nat → PState → PRes ExportAs
  | 0, _ => none
  | fuel + 1, st =>
    pthen (pPeek (some "default") st) fun def? st₁ =>
    match def? with
    | some _ =>
      pthen (pConsume none st₁) fun _ st₂ =>
      pthen (pConsumeT "as" st₂) fun _ st₃ =>
      pthen (pConsumeT "identifier" st₃) fun aliasTok st₄ =>
      pok ⟨none, true, some (tokStr aliasTok.tvalue)⟩ st₄
    | none =>
      pthen (pConsumeT "identifier" st₁) fun nameTok st₂ =>
      pthen (pPeek (some "as") st₂) fun as? st₃ =>
      match as? with
      | some _ =>
        pthen (pConsume none st₃) fun _ st₄ =>
        pthen (pConsumeT "identifier" st₄) fun aliasTok st₅ =>
        pok ⟨some (tokStr nameTok.tvalue), false, some (tokStr aliasTok.tvalue)⟩ st₅
      | none => pok ⟨some (tokStr nameTok.tvalue), false, none⟩ st₃

/-- `while (this.lexer.peek(','))` of the named-export list. -/
def pExportList : Nat → List ExportAs → PState → PRes (List ExportAs)
  | 0, _, _ => none
  | fuel + 1, acc, st =>
    pthen (pPeek (some ",") st) fun comma? st₁ =>
    match comma? with
    | none => pok acc st₁
    | some _ =>
      pthen (pConsume none st₁) fun _ st₂ =>
      pbind (pExportOne fuel st₂) fun e st₃ =>
      pExportList fuel (acc ++ [e]) st₃
termination_by structural f _ _ => f

/-- `parseAssignment`: at most one assignment operator, right operand parsed
once at the ternary level. -/
def pAssignment : Nat → PState → PRes Node
  | 0, _ => none
  | fuel + 1, st =>
    pbind (pTernary fuel st) fun left st₁ =>
    pthen (pPeek none st₁) fun op? st₂ =>
    match op? with
    | some op =>
      if valueIs op.tvalue ["=", "+=", "-=", "*=", "/="] then
        pthen (pConsume none st₂) fun _ st₃ =>
        pbind (pTernary fuel st₃) fun right st₄ =>
        pok (.assign left (tokStr op.tvalue) right) st₄
      else pok left st₂
    | none => pok left st₂
termination_by structural f _ => f

/-- `parseTernary`. -/
def pTernary : Nat → PState → PRes Node
  | 0, _ => none
  | fuel + 1, st =>
    pbind (pBoolean fuel st) fun c st₁ =>
    pthen (pPeek (some "?") st₁) fun q? st₂ =>
    match q? with
    | some _ =>
      pthen (pConsume none st₂) fun _ st₃ =>
      pbind (pExpressionP fuel st₃) fun t st₄ =>
      pthen (pConsumeT ":" st₄) fun _ st₅ =>
      pbind (pExpressionP fuel st₅) fun e st₆ =>
      pok (.ternary c t e) st₆
    | none => pok c st₂
termination_by structural f _ => f

/-- `parseBoolean`. -/
def pBoolean : Nat → PState → PRes Node
  | 0, _ => none
  | fuel + 1, st => parseBinExpr (pEquality fuel) ["&&", "||"] st
termination_by structural f _ => f

/-- `parseEquality`. -/
def pEquality : Nat → PState → PRes Node
  | 0, _ => none
  | fuel + 1, st =>
    parseBinExpr (pArithmetic fuel)
      ["===", "==", "!==", "!=", ">=", "<=", ">", "<"] st
termination_by structural f _ => f

/-- `parseArithmetic`. -/
def pArithmetic : Nat → PState → PRes Node
  | 0, _ => none
  | fuel + 1, st => parseBinExpr (pGeometric fuel) ["+", "-"] st
termination_by structural f _ => f

/-- `parseGeometric`. -/
def pGeometric : Nat → PState → PRes Node
  | 0, _ => none
  | fuel + 1, st => parseBinExpr (pUnary fuel) ["*", "/"] st
termination_by structural f _ => f

/-- `parseUnary`. -/
def pUnary : Nat → PState → PRes Node
  | 0, _ => none
  | fuel + 1, st =>
    pthen (pPeekOp "-" st) fun minus? st₁ =>
    match minus? with
    | some _ =>
      pthen (pConsume none st₁) fun opTok st₂ =>
      pbind (pUnary fuel st₂) fun e st₃ =>
      pok (.unary (strOfOpt opTok) e) st₃
    | none =>
      pthen (pPeekOp "!" st₁) fun bang? st₂ =>
      match bang? with
      | some _ =>
        pthen (pConsume none st₂) fun opTok st₃ =>
        pbind (pUnary fuel st₃) fun e st₄ =>
        pok (.unary (strOfOpt opTok) e) st₄
      | none =>
        pthen (pPeekOp "--" st₂) fun dec? st₃ =>
        match dec? with
        | some _ =>
          pthen (pConsume none st₃) fun opTok st₄ =>
          pbind (pPostOp fuel st₄) fun e st₅ =>
          pok (.incDec true (strOfOpt opTok) e) st₅
        | none =>
          pthen (pPeekOp "++" st₃) fun inc? st₄ =>
          match inc? with
          | some _ =>
            pthen (pConsume none st₄) fun opTok st₅ =>
            pbind (pPostOp fuel st₅) fun e st₆ =>
            pok (.incDec true (strOfOpt opTok) e) st₆
          | none => pPostOp fuel st₄
termination_by structural f _ => f

/-- `parsePostOp`. -/
def pPostOp : Nat → PState → PRes Node
  | 0, _ => none
  | fuel + 1, st =>
    pbind (pAccess fuel st) fun expr st₁ =>
    pthen (pPeekOp "--" st₁) fun dec? st₂ =>
    match dec? with
    | some _ =>
      pthen (pConsume none st₂) fun opTok st₃ =>
      pok (.incDec false (strOfOpt opTok) expr) st₃
    | none =>
      pthen (pPeekOp "++" st₂) fun inc? st₃ =>
      match inc? with
      | some _ =>
        pthen (pConsume none st₃) fun opTok st₄ =>
        pok (.incDec false (strOfOpt opTok) expr) st₄
      | none => pok expr st₃
termination_by structural f _ => f

/-- `parseAccess`: primary followed by the *iterated* `[ . (` chain (the one
left-associated level). -/
def pAccess : Nat → PState → PRes Node
  | 0, _ => none
  | fuel + 1, st =>
    pbind (pPrimary fuel st) fun obj st₁ =>
    pAccessLoop fuel obj st₁
termination_by structural f _ => f

/-- The `while (peek('[') || peek('.') || peek('('))` chain. -/
def pAccessLoop : Nat → Node → PState → PRes Node
  | 0, _, _ => none
  | fuel + 1, obj, st =>
    pthen (pPeek (some "[") st) fun br? st₁ =>
    match br? with
    | some _ =>
      pthen (pConsumeT "[" st₁) fun _ st₂ =>
      pbind (pExpressionP fuel st₂) fun idx st₃ =>
      pthen (pConsumeT "]" st₃) fun _ st₄ =>
      pAccessLoop fuel (.arrAccess obj idx) st₄
    | none =>
      pthen (pPeek (some ".") st₁) fun dot? st₂ =>
      match dot? with
      | some _ =>
        pthen (pConsumeT "." st₂) fun _ st₃ =>
        pthen (pConsumeT "identifier" st₃) fun fieldTok st₄ =>
        pthen (pPeek (some "(") st₄) fun call? st₅ =>
        match call? with
        | some _ =>
          pthen (pConsumeT "(" st₅) fun _ st₆ =>
          pbind (pCallArgs fuel st₆) fun args st₇ =>
          pthen (pConsumeT ")" st₇) fun _ st₈ =>
          pAccessLoop fuel (.methodCall obj (tokStr fieldTok.tvalue) args) st₈
        | none => pAccessLoop fuel (.fieldAccess obj (tokStr fieldTok.tvalue)) st₅
      | none =>
        pthen (pPeek (some "(") st₂) fun par? st₃ =>
        match par? with
        | some _ =>
          pthen (pConsumeT "(" st₃) fun _ st₄ =>
          pbind (pCallArgs fuel st₄) fun args st₅ =>
          pthen (pConsumeT ")" st₅) fun _ st₆ =>
          pAccessLoop fuel (.funcCall obj args) st₆
        | none => pok obj st₃
termination_by structural f _ _ => f

/-- The shared `(arg, arg, ...)` list (without the parentheses). -/
def pCallArgs : Nat → PState → PRes (List Node)
  | 0, _ => none
  | fuel + 1, st =>
    pthen (pPeek (some ")") st) fun cl? st₁ =>
    match cl? with
    | some _ => pok [] st₁
    | none =>
      pbind (pExpressionP fuel st₁) fun a st₂ =>
      pCallArgsLoop fuel [a] st₂
termination_by structural f _ => f

/-- `while (this.lexer.peek(','))` of an argument list. -/
def pCallArgsLoop : Nat → List Node → PState → PRes (List Node)
  | 0, _, _ => none
  | fuel + 1, acc, st =>
    pthen (pPeek (some ",") st) fun comma? st₁ =>
    match comma? with
    | none => pok acc st₁
    | some _ =>
      pthen (pConsume none st₁) fun _ st₂ =>
      pbind (pExpressionP fuel st₂) fun a st₃ =>
      pCallArgsLoop fuel (acc ++ [a]) st₃
termination_by structural f _ _ => f

/-- `parsePrimary`, including the arrow-function backtracking: on a post-primary
`=>`, and on *any* error raised inside the `try` (also one raised by the inner
arrow-function attempt), the lexer is reverted to the token start and
`parseFunction` is (re)tried. -/
def pPrimary : Nat → PState → PRes Node
  | 0, _ => none
  | fuel + 1, st =>
    pthen (pPeek none st) fun tk? st₀ =>
    let position := st₀.lex.lastPosition
    let dispatched : PRes Node :=
      match tk? with
      | some tok =>
        match tok.ttype with
        | "true" =>
          pthen (pConsume none st₀) fun _ s => pok (.lit (.bool true)) s
        | "false" =>
          pthen (pConsume none st₀) fun _ s => pok (.lit (.bool false)) s
        | "null" =>
          pthen (pConsume none st₀) fun _ s => pok (.lit .null) s
        | "undefined" =>
          pthen (pConsume none st₀) fun _ s => pok (.lit .undef) s
        | "number" =>
          pthen (pConsume none st₀) fun t? s =>
          pok (.lit (.num (match t? with
            | some ⟨_, .num n, _⟩ => n
            | _ => 0))) s
        | "string" =>
          pthen (pConsume none st₀) fun t? s => pok (.lit (.str (strOfOpt t?))) s
        | "(" => pParentheses fuel st₀
        | "[" => pArray fuel st₀
        | "\x7b" => pObject fuel st₀
        | "<" => pHtml fuel st₀
        | "`" => pTemplateString fuel st₀
        | "new" => pNew fuel st₀
        | "typeof" => pTypeof fuel st₀
        | "identifier" =>
          pthen (pConsume none st₀) fun t? s => pok (.load (strOfOpt t?)) s
        | other =>
          perr (st₀.lex.currentPosition : Int)
            ("Unexpected token " ++ sq ++ other ++ sq) st₀
      | none => perr (st₀.lex.currentPosition : Int) "Unexpected token" st₀
    let attempt : PRes Node :=
      pbind dispatched fun result st₁ =>
      pthen (pPeek (some "=>") st₁) fun arrow? st₂ =>
      match arrow? with
      | some _ => pFunction fuel { st₂ with lex := lexRevert position st₂.lex }
      | none => pok result st₂
    match attempt with
    | none => none
    | some (.error (_, stE)) =>
      pFunction fuel { stE with lex := lexRevert position stE.lex }
    | some (.ok (n, st')) => pok n st'
termination_by structural f _ => f

/-- `parseTypeof`. -/
def pTypeof : Nat → PState → PRes Node
  | 0, _ => none
  | fuel + 1, st =>
    pthen (pConsumeT "typeof" st) fun _ st₁ =>
    pbind (pExpressionP fuel st₁) fun e st₂ =>
    pok (.typeofN e) st₂
termination_by structural f _ => f

/-- `parseNew`. -/
def pNew : Nat → PState → PRes Node
  | 0, _ => none
  | fuel + 1, st =>
    pthen (pConsumeT "new" st) fun _ st₁ =>
    pthen (pConsumeT "identifier" st₁) fun cn st₂ =>
    pthen (pPeek (some "(") st₂) fun par? st₃ =>
    match par? with
    | some _ =>
      pthen (pConsumeT "(" st₃) fun _ st₄ =>
      pbind (pCallArgs fuel st₄) fun args st₅ =>
      pthen (pConsumeT ")" st₅) fun _ st₆ =>
      pok (.newN (tokStr cn.tvalue) args) st₆
    | none => pok (.newN (tokStr cn.tvalue) []) st₃
termination_by structural f _ => f

/-- `parseFunction` (arrow functions). -/
def pFunction : Nat → PState → PRes Node
  | 0, _ => none
  | fuel + 1, st =>
    pthen (pPeek (some "(") st) fun par? st₀ =>
    pbind
      (match par? with
       | some _ =>
         pthen (pConsumeT "(" st₀) fun _ st₁ =>
         pthen (pPeek (some ")") st₁) fun cl? st₂ =>
         pbind
           (match cl? with
            | some _ => pok ([] : List VariableN) st₂
            | none =>
              pbind (pVariable fuel false st₂) fun v st₃ =>
              pFunctionParams fuel [v] st₃)
           fun params st₃ =>
         pthen (pConsumeT ")" st₃) fun _ st₄ =>
         pok params st₄
       | none =>
         pbind (pVariable fuel true st₀) fun v st₁ =>
         pok [v] st₁)
      fun params st₁ =>
    pthen (pConsumeT "=>" st₁) fun _ st₂ =>
    let st₃ := { st₂ with blockDepth := st₂.blockDepth + 1 }
    pthen (pPeek (some "\x7b") st₃) fun brace? st₄ =>
    pbind
      (match brace? with
       | some _ => pBlock fuel st₄
       | none => pExpressionP fuel st₄)
      fun body st₅ =>
    let st₆ := { st₅ with blockDepth := st₅.blockDepth - 1 }
    pok (.func params body) st₆
termination_by structural f _ => f

/-- `while (this.lexer.peek(','))` of a parameter list. -/
def pFunctionParams : Nat → List VariableN → PState → PRes (List VariableN)
  | 0, _, _ => none
  | fuel + 1, acc, st =>
    pthen (pPeek (some ",") st) fun comma? st₁ =>
    match comma? with
    | none => pok acc st₁
    | some _ =>
      pthen (pConsume none st₁) fun _ st₂ =>
      pbind (pVariable fuel false st₂) fun v st₃ =>
      pFunctionParams fuel (acc ++ [v]) st₃
termination_by structural f _ _ => f

/-- `parseParentheses`. -/
def pParentheses : Nat → PState → PRes Node
  | 0, _ => none
  | fuel + 1, st =>
    pthen (pConsumeT "(" st) fun _ st₁ =>
    pbind (pExpressionP fuel st₁) fun e st₂ =>
    pthen (pConsumeT ")" st₂) fun _ st₃ =>
    pok (.parens e) st₃
termination_by structural f _ => f

/-- `parseExpressionOrSpread`. -/
def pExprOrSpread : Nat → PState → PRes Node
  | 0, _ => none
  | fuel + 1, st =>
    pthen (pPeek (some "...") st) fun sp? st₁ =>
    match sp? with
    | some _ =>
      pthen (pConsume none st₁) fun _ st₂ =>
      pbind (pExpressionP fuel st₂) fun e st₃ =>
      pok (.spread e) st₃
    | none => pExpressionP fuel st₁
termination_by structural f _ => f

/-- `parseArray`. -/
def pArray : Nat → PState → PRes Node
  | 0, _ => none
  | fuel + 1, st =>
    pthen (pConsumeT "[" st) fun _ st₁ =>
    pthen (pPeek (some "]") st₁) fun cl? st₂ =>
    pbind
      (match cl? with
       | some _ => pok ([] : List Node) st₂
       | none =>
         pbind (pExprOrSpread fuel st₂) fun e st₃ =>
         pArrayElems fuel [e] st₃)
      fun elems st₃ =>
    pthen (pConsumeT "]" st₃) fun _ st₄ =>
    pok (.arr elems) st₄
termination_by structural f _ => f

/-- `while (this.lexer.peek(','))` of an array literal. -/
def pArrayElems : Nat → List Node → PState → PRes (List Node)
  | 0, _, _ => none
  | fuel + 1, acc, st =>
    pthen (pPeek (some ",") st) fun comma? st₁ =>
    match comma? with
    | none => pok acc st₁
    | some _ =>
      pthen (pConsume none st₁) fun _ st₂ =>
      pbind (pExprOrSpread fuel st₂) fun e st₃ =>
      pArrayElems fuel (acc ++ [e]) st₃
termination_by structural f _ _ => f

/-- `parseObject`. -/
def pObject : Nat → PState → PRes Node
  | 0, _ => none
  | fuel + 1, st =>
    pthen (pConsumeT "\x7b" st) fun _ st₁ =>
    pthen (pPeek (some "\x7d") st₁) fun cl? st₂ =>
    pbind
      (match cl? with
       | some _ => pok ([] : List ObjField) st₂
       | none =>
         pbind (pKeyValue fuel st₂) fun f st₃ =>
         pObjectFields fuel [f] st₃)
      fun fields st₃ =>
    pthen (pConsumeT "\x7d" st₃) fun _ st₄ =>
    pok (.objN fields) st₄
termination_by structural f _ => f

/-- One `parseKeyValuePair`. -/
def pKeyValue : Nat → PState → PRes ObjField
  | 0, _ => none
  | fuel + 1, st =>
    pthen (pPeek (some "...") st) fun sp? st₁ =>
    match sp? with
    | some _ =>
      pthen (pConsume none st₁) fun _ st₂ =>
      pbind (pExpressionP fuel st₂) fun v st₃ =>
      pok (.spreadF v) st₃
    | none =>
      pthen (pPeek (some "[") st₁) fun br? st₂ =>
      match br? with
      | some _ =>
        pthen (pConsume none st₂) fun _ st₃ =>
        pbind (pExpressionP fuel st₃) fun k st₄ =>
        pthen (pConsumeT "]" st₄) fun _ st₅ =>
        pthen (pConsumeT ":" st₅) fun _ st₆ =>
        pbind (pExpressionP fuel st₆) fun v st₇ =>
        pok (.dynamic k v) st₇
      | none =>
        pthen (pPeek (some "string") st₂) fun str? st₃ =>
        match str? with
        | some _ =>
          pthen (pConsume none st₃) fun kt st₄ =>
          pthen (pConsumeT ":" st₄) fun _ st₅ =>
          pbind (pExpressionP fuel st₅) fun v st₆ =>
          pok (.regular (strOfOpt kt) (some v)) st₆
        | none =>
          pthen (pConsumeT "identifier" st₃) fun kt st₄ =>
          pthen (pPeek (some ":") st₄) fun colon? st₅ =>
          match colon? with
          | some _ =>
            pthen (pConsumeT ":" st₅) fun _ st₆ =>
            pbind (pExpressionP fuel st₆) fun v st₇ =>
            pok (.regular (tokStr kt.tvalue) (some v)) st₇
          | none => pok (.regular (tokStr kt.tvalue) none) st₅
termination_by structural f _ => f

/-- `while (this.lexer.peek(','))` of an object literal. -/
def pObjectFields : Nat → List ObjField → PState → PRes (List ObjField)
  | 0, _, _ => none
  | fuel + 1, acc, st =>
    pthen (pPeek (some ",") st) fun comma? st₁ =>
    match comma? with
    | none => pok acc st₁
    | some _ =>
      pthen (pConsume none st₁) fun _ st₂ =>
      pbind (pKeyValue fuel st₂) fun f st₃ =>
      pObjectFields fuel (acc ++ [f]) st₃
termination_by structural f _ _ => f

/-- `parseHtml`. -/
def pHtml : Nat → PState → PRes Node
  | 0, _ => none
  | fuel + 1, st =>
    pthen (pConsumeT "<" st) fun _ st₁ =>
    pthen (pPeek (some "identifier") st₁) fun id? st₂ =>
    pbind
      (match id? with
       | some _ =>
         pthen (pConsumeT "identifier" st₂) fun t st₃ =>
         pok (some (tokStr t.tvalue)) st₃
       | none => pok (none : Option String) st₂)
      fun tag? st₃ =>
    pbind
      (match tag? with
       | some _ => pHtmlAttributes fuel [] st₃
       | none => pok ([] : List (String × Node)) st₃)
      fun attrs st₄ =>
    pthen (pPeek (some "/>") st₄) fun selfClose? st₅ =>
    match selfClose? with
    | some _ =>
      pthen (pConsume none st₅) fun _ st₆ =>
      pok (.html tag? attrs []) st₆
    | none =>
      pthen (pConsumeT ">" st₅) fun _ st₆ =>
      pbind (pHtmlChildren fuel [] st₆.lex.currentPosition st₆) fun children st₇ =>
      pthen (pConsumeT "</" st₇) fun _ st₈ =>
      pbind
        (match tag? with
         | some t =>
           pthen (pConsumeIdent t st₈) fun _ s => pok () s
         | none => pok () st₈)
        fun _ st₉ =>
      pthen (pConsumeT ">" st₉) fun _ st₁₀ =>
      pok (.html tag? attrs children) st₁₀
termination_by structural f _ => f

/-- `parseHtmlAttributes`. -/
def pHtmlAttributes : Nat → List (String × Node) → PState → PRes (List (String × Node))
  | 0, _, _ => none
  | fuel + 1, acc, st =>
    pthen (pPeek (some "identifier") st) fun id? st₁ =>
    match id? with
    | none => pok acc st₁
    | some _ =>
      pthen (pConsume none st₁) fun nameTok st₂ =>
      pthen (pPeekOp "=" st₂) fun eq? st₃ =>
      match eq? with
      | some _ =>
        pthen (pConsumeOp "=" st₃) fun _ st₄ =>
        pthen (pPeek (some "string") st₄) fun str? st₅ =>
        match str? with
        | some _ =>
          pthen (pConsume none st₅) fun vt st₆ =>
          pHtmlAttributes fuel (attrSet acc (strOfOpt nameTok) (.lit (.str (strOfOpt vt)))) st₆
        | none =>
          pthen (pConsumeT "\x7b" st₅) fun _ st₆ =>
          pbind (pExpressionP fuel st₆) fun e st₇ =>
          pthen (pConsumeT "\x7d" st₇) fun _ st₈ =>
          pHtmlAttributes fuel (attrSet acc (strOfOpt nameTok) e) st₈
      | none =>
        pHtmlAttributes fuel (attrSet acc (strOfOpt nameTok) (.lit (.bool true))) st₃
termination_by structural f _ _ => f

/-- `parseHtmlExpression`. -/
def pHtmlExpression : Nat → PState → PRes Node
  | 0, _ => none
  | fuel + 1, st =>
    pthen (pConsumeT "\x7b" st) fun _ st₁ =>
    pbind (pExpressionP fuel st₁) fun e st₂ =>
    pthen (pConsumeT "\x7d" st₂) fun _ st₃ =>
    pok (.htmlExpr e) st₃
termination_by structural f _ => f

/-- `parseHtmlChildren` (the running `textStart` feeds `getUntil`). -/
def pHtmlChildren : Nat → List Node → Nat → PState → PRes (List Node)
  | 0, _, _, _ => none
  | fuel + 1, acc, textStart, st =>
    pthen (pPeek (some "</") st) fun close? st₁ =>
    match close? with
    | some _ => pok acc st₁
    | none =>
      pthen (pPeek (some "<") st₁) fun lt? st₂ =>
      match lt? with
      | some _ =>
        pbind (pHtml fuel st₂) fun h st₃ =>
        pHtmlChildren fuel (acc ++ [h]) st₃.lex.currentPosition st₃
      | none =>
        pthen (pPeek (some "\x7b") st₂) fun br? st₃ =>
        match br? with
        | some _ =>
          pbind (pHtmlExpression fuel st₃) fun h st₄ =>
          pHtmlChildren fuel (acc ++ [h]) st₄.lex.currentPosition st₄
        | none =>
          pthen (pGetUntil ["<", "</"] (some textStart) st₃) fun textTok st₄ =>
          pHtmlChildren fuel (acc ++ [.htmlText (tokStr textTok.tvalue)])
            st₄.lex.currentPosition st₄
termination_by structural f _ _ _ => f

/-- `parseTemplateString`. -/
def pTemplateString : Nat → PState → PRes Node
  | 0, _ => none
  | fuel + 1, st =>
    pthen (pConsumeT "`" st) fun _ st₁ =>
    pbind (pTemplateParts fuel [] st₁.lex.currentPosition st₁) fun parts st₂ =>
    pthen (pConsumeT "`" st₂) fun _ st₃ =>
    pok (.templateStr parts) st₃
termination_by structural f _ => f

/-- The part loop of `parseTemplateString`. -/
def pTemplateParts : Nat → List Node → Nat → PState → PRes (List Node)
  | 0, _, _, _ => none
  | fuel + 1, acc, textStart, st =>
    pthen (pPeek (some "`") st) fun bt? st₁ =>
    match bt? with
    | some _ => pok acc st₁
    | none =>
      pthen (pPeek (some "$\x7b") st₁) fun es? st₂ =>
      match es? with
      | some tok =>
        if tok.position = (textStart : Int) then
          pthen (pConsumeT "$\x7b" st₂) fun _ st₃ =>
          pbind (pExpressionP fuel st₃) fun e st₄ =>
          pthen (pConsumeT "\x7d" st₄) fun _ st₅ =>
          pTemplateParts fuel (acc ++ [e]) st₅.lex.currentPosition st₅
        else
          pthen (pGetUntil [String.singleton backtickCh, "$\x7b"] (some textStart) st₂)
            fun textTok st₃ =>
          pTemplateParts fuel (acc ++ [.templateContent (tokStr textTok.tvalue)])
            st₃.lex.currentPosition st₃
      | none =>
        pthen (pGetUntil [String.singleton backtickCh, "$\x7b"] (some textStart) st₂)
          fun textTok st₃ =>
        pTemplateParts fuel (acc ++ [.templateContent (tokStr textTok.tvalue)])
          st₃.lex.currentPosition st₃
termination_by structural f _ _ _ => f

/-- `parse()`: statements until `peek()` is exhausted. -/
def pProgramGo : Nat → List Node → PState → PRes (List Node)
  | 0, _, _ => none
  | fuel + 1, acc, st =>
    pthen (pPeek none st) fun tk? st₁ =>
    match tk? with
    | none => pok acc st₁
    | some _ =>
      pbind (pStatement fuel st₁) fun n st₂ =>
      pProgramGo fuel (acc ++ [n]) st₂
termination_by structural f _ _ => f

end

/-- `new Parser(input).parse()`, with the per-call states stripped. -/
def parseProgram (input : String) (fuel : Nat) : Option (Except PError (List Node)) :=
  match pProgramGo fuel [] ⟨mkLexer input, 0⟩ with
  | none => none
  | some (.error (e, _)) => some (.error e)
  | some (.ok (ns, _)) => some (.ok ns)

/-- The exported `parseExpression(input)` helper: parse errors are caught and
replaced with an `ErrorNode` carrying the message.  `none` is fuel
exhaustion. -/
def parseExpressionTop (input : String) (fuel : Nat) : Option Node :=
  match pExpressionP fuel ⟨mkLexer input, 0⟩ with
  | none => none
  | some (.error (e, _)) => some (.errorN e.message)
  | some (.ok (n, _)) => some n

/-! ### Value operations (the host-language semantics the interpreter leans on)

JavaScript's full coercion lattice is pinned down only where the verified
programs exercise it: integer arithmetic, string concatenation, strict
equality on primitives, truthiness.  `undef` stands in for `NaN` outcomes;
reference equality on objects is modelled as `false` (no theorem below
compares reference values). -/

def braceL : Char := Char.ofNat 123

def braceR : Char := Char.ofNat 125

mutual

/-- `String(v)`. -/
def jsToString : Value → String
  | .undef => "undefined"
  | .null => "null"
  | .bool b => if b then "true" else "false"
  | .num n => toString n
  | .str s => s
  | .arr es => jsToStrArr es
  | .obj _ => "[object Object]"
  | .closure _ _ _ => "function"
  | .retEx _ => "[object Object]"
  | .hostErr m => "Error: " ++ m
  | .htmlElem _ _ _ => "[object Object]"
  | .hostObj _ _ => "[object Object]"

/-- `Array.prototype.toString` (elements joined by commas, `null`/`undefined`
as empty). -/
def jsToStrArr : List Value → String
  | [] => ""
  | v :: rest =>
    (match v with
     | .undef => ""
     | .null => ""
     | w => jsToString w) ++
    (match rest with
     | [] => ""
     | _ => "," ++ jsToStrArr rest)

end

/-- `.join('')` as used by `TemplateStringNode`. -/
def joinEmpty (vs : List Value) : String :=
  vs.foldl (fun acc v =>
    acc ++ (match v with
            | .undef => ""
            | .null => ""
            | w => jsToString w)) ""

/-- `ToNumber` on the fragments the programs use. -/
def toNumOpt : Value → Option Int
  | .num n => some n
  | .bool b => some (if b then 1 else 0)
  | .null => some 0
  | _ => none

/-- The `+` operator: numeric addition, string concatenation (with object
operands coerced through `jsToString`), `undef` for the `NaN` cases. -/
def jsAdd (a b : Value) : Value :=
  match a, b with
  | .str s, _ => .str (s ++ jsToString b)
  | _, .str s => .str (jsToString a ++ s)
  | .arr _, _ => .str (jsToString a ++ jsToString b)
  | _, .arr _ => .str (jsToString a ++ jsToString b)
  | .obj _, _ => .str (jsToString a ++ jsToString b)
  | _, .obj _ => .str (jsToString a ++ jsToString b)
  | _, _ =>
    match toNumOpt a, toNumOpt b with
    | some x, some y => .num (x + y)
    | _, _ => (.undef)

/-- The `-` operator (numeric only; `undef` for `NaN`). -/
def jsSub (a b : Value) : Value :=
  match toNumOpt a, toNumOpt b with
  | some x, some y => .num (x - y)
  | _, _ => (.undef)

/-- The `*` operator. -/
def jsMul (a b : Value) : Value :=
  match toNumOpt a, toNumOpt b with
  | some x, some y => .num (x * y)
  | _, _ => (.undef)

/-- The `/` operator (integer division stands in for float division; the
verified programs never divide). -/
def jsDiv (a b : Value) : Value :=
  match toNumOpt a, toNumOpt b with
  | some x, some y => if y = 0 then .undef else .num (x / y)
  | _, _ => (.undef)

/-- Unary `-`. -/
def jsNeg : Value → Value
  | .num n => .num (-n)
  | .bool b => .num (if b then -1 else 0)
  | .null => .num 0
  | _ => (.undef)

/-- `===` on the primitive fragment (reference values compare `false`). -/
def strictEq : Value → Value → Bool
  | .undef, .undef => true
  | .null, .null => true
  | .bool a, .bool b => a = b
  | .num a, .num b => a = b
  | .str a, .str b => a = b
  | _, _ => false

/-- `==`: `===` plus the `null == undefined` pair (numeric-string coercions
are not exercised by any verified program and compare `false`). -/
def looseEq (a b : Value) : Bool :=
  strictEq a b ||
  (match a, b with
   | .null, .undef => true
   | .undef, .null => true
   | _, _ => false)

/-- `<` on numbers and strings. -/
def jsLtB : Value → Value → Bool
  | .num a, .num b => a < b
  | .str a, .str b => a < b
  | _, _ => false

/-- `typeof`. -/
def typeofStr : Value → String
  | .undef => "undefined"
  | .bool _ => "boolean"
  | .num _ => "number"
  | .str _ => "string"
  | .closure _ _ _ => "function"
  | _ => "object"

/-- Property read `v[f]` for a string key: records, array `length` and
numeric indices, string `length`, the `value` field of a
`ReturnValueException`, the `message` of an `Error`. -/
def fieldGet (v : Value) (f : String) : Value :=
  match v with
  | .obj fs =>
    (match fs.find? (fun p => p.1 = f) with
     | some p => p.2
     | none => .undef)
  | .arr es =>
    if f = "length" then .num es.length
    else if f ≠ "" ∧ f.data.all isDigit then
      es.getD (parseIntDec f).toNat .undef
    else .undef
  | .str s =>
    if f = "length" then .num s.length else .undef
  | .retEx p => if f = "value" then p else .undef
  | .hostErr m => if f = "message" then .str m else .undef
  | _ => (.undef)

/-- Computed property read `v[idx]`. -/
def indexGet (v : Value) (idx : Value) : Value :=
  match v, idx with
  | .arr es, .num n =>
    if 0 ≤ n ∧ n < (es.length : Int) then es.getD n.toNat .undef else .undef
  | .str s, .num n =>
    if 0 ≤ n ∧ n < (s.length : Int) then
      match s.data.get? n.toNat with
      | some c => .str (String.singleton c)
      | none => .undef
    else .undef
  | _, _ => fieldGet v (jsToString idx)

/-- `values[index]` during array destructuring. -/
def arrIdx (v : Value) (i : Nat) : Value :=
  match v with
  | .arr es => es.getD i .undef
  | .str s =>
    match s.data.get? i with
    | some c => .str (String.singleton c)
    | none => .undef
  | _ => (.undef)

/-- `values.slice(index)` during rest destructuring (`none` is the host
`TypeError` on a value without `slice`). -/
def sliceFrom (v : Value) (i : Nat) : Option Value :=
  match v with
  | .arr es => some (.arr (es.drop i))
  | .str s => some (.str (s.drop i))
  | _ => none

/-- `[...acc, ...v]` inside an array literal (`none` is the host `TypeError`
on a non-iterable). -/
def spreadElems : Value → Option (List Value)
  | .arr es => some es
  | .str s => some (s.data.map (fun c => .str (String.singleton c)))
  | _ => none

/-- `{...acc, ...v}` inside an object literal: own enumerable properties of
objects (and index keys of arrays) are merged; primitives contribute
nothing. -/
def objMergeSpread (acc : List (String × Value)) : Value → List (String × Value)
  | .obj fs => fs.foldl (fun a p => scopeSet a p.1 p.2) acc
  | .arr es =>
    (es.enum.map (fun p => (toString p.1, p.2))).foldl
      (fun a p => scopeSet a p.1 p.2) acc
  | _ => acc

/-- Does a string literal contain the interpolation marker? -/
def hasInterp : List Char → Bool
  | [] => false
  | c :: rest => (c = '#' && rest.headD ' ' = braceL) || hasInterp rest

/-- Scan the body of a `#{...}` interpolation: the characters up to the next
closing brace, failing on a nested brace (mirroring the `[^{}]*` regex). -/
def takeInterpGo : List Char → String → Option (String × List Char)
  | [], _ => none
  | c :: rest, acc =>
    if c = braceR then some (acc, rest)
    else if c = braceL then none
    else takeInterpGo rest (acc.push c)

/-! ### Interpreter -/

/-- The three ways an `evaluate` call can finish: normal completion, the
`ReturnValueException` unwind, or a thrown exception (user `throw` value or
host error). -/
inductive Outcome where
  | ok (v : Value)
  | ret (v : Value)
  | exn (v : Value)

/-- A finished evaluation: outcome, runtime state, and the instrumentation
bit recording whether some `try/catch` handler ran on the way. -/
structure EvalRes where
  out : Outcome
  st : State
  caught : Bool

/-- `none` = fuel exhausted. -/
abbrev OR := Option EvalRes

def okR (v : Value) (s : State) : OR := some ⟨.ok v, s, false⟩

def exnR (v : Value) (s : State) : OR := some ⟨.exn v, s, false⟩

/-- Merge an earlier `caught` bit into a result. -/
def orFlag (c : Bool) (r : OR) : OR :=
  r.map fun q => ⟨q.out, q.st, c || q.caught⟩

/-- Sequencing: continue on normal completion, propagate `ret`/`exn`. -/
def seqR (r : OR) (k : Value → State → OR) : OR :=
  match r with
  | none => none
  | some q =>
    match q.out with
    | .ok v => orFlag q.caught (k v q.st)
    | _ => some q

/-- The JavaScript value a `catch (e)` binds: the thrown value itself, or the
`ReturnValueException` object when the unwind was a `return`. -/
def exnValue : Outcome → Value
  | .ok v => v
  | .ret v => .retEx v
  | .exn v => v

/-- `{ s with stack := s.stack - 1 }` (`popStack`). -/
def popStack1 (s : State) : State :=
  { s with stack := s.stack - 1 }

/-- The compound-assignment operator table. -/
def compoundOp (op : String) (a b : Value) : Value :=
  if op = "+=" then jsAdd a b
  else if op = "-=" then jsSub a b
  else if op = "*=" then jsMul a b
  else if op = "/=" then jsDiv a b
  else (.undef)

/-- The non-short-circuit binary operator table of `BinaryOpNode.evaluate`. -/
def binApply (op : String) (a b : Value) : Value :=
  if op = "===" then .bool (strictEq a b)
  else if op = "==" then .bool (looseEq a b)
  else if op = "!==" then .bool (!strictEq a b)
  else if op = "!=" then .bool (!looseEq a b)
  else if op = ">" then .bool (jsLtB b a)
  else if op = ">=" then .bool (jsLtB b a || strictEq a b)
  else if op = "<" then .bool (jsLtB a b)
  else if op = "<=" then .bool (jsLtB a b || strictEq a b)
  else if op = "*" then jsMul a b
  else if op = "/" then jsDiv a b
  else if op = "+" then jsAdd a b
  else if op = "-" then jsSub a b
  else .undef

mutual

/-- `evaluate(runtime)`, one case per node class of `nodes.ts`. -/
def evalNode : Nat → Node → State → OR
  | 0, _, _ => none
  | fuel + 1, n, s =>
    match n with
    | .errorN msg => okR (.str msg) s
    | .noop => okR .undef s
    | .varDecl _ v => evalVariable fuel v s
    | .importN _ _ _ _ => okR .undef s
    | .exportN _ _ _ _ _ => okR .undef s
    | .block stmts =>
      let s₁ := pushScope none s
      (match evalStmtsB fuel stmts s₁ with
       | none => none
       | some q =>
         match q.out with
         | .ok _ => some ⟨.ok .undef, popScope q.st, q.caught⟩
         | .ret v => some ⟨.ret v, popScope q.st, q.caught⟩
         | .exn v => some ⟨.exn v, q.st, q.caught⟩)
    | .ret v? =>
      (match v? with
       | none => some ⟨.ret .undef, s, false⟩
       | some e => seqR (evalNode fuel e s) fun v s₁ => some ⟨.ret v, s₁, false⟩)
    | .ifN c t e? =>
      seqR (evalNode fuel c s) fun v s₁ =>
      if truthy v then
        seqR (evalNode fuel t s₁) fun _ s₂ => okR .undef s₂
      else
        (match e? with
         | some e => seqR (evalNode fuel e s₁) fun _ s₂ => okR .undef s₂
         | none => okR .undef s₁)
    | .whileN c b => whileGo fuel c b s
    | .throwN e =>
      seqR (evalNode fuel e s) fun v s₁ =>
      (match v with
       | .retEx p => some ⟨.ret p, s₁, false⟩
       | _ => some ⟨.exn v, s₁, false⟩)
    | .tryCatch tb cb name? fin? =>
      (match evalNode fuel tb s with
       | none => none
       | some q =>
         match q.out with
         | .ok _ => evalFinally fuel fin? ⟨.ok .undef, q.st, q.caught⟩
         | o =>
           match evalCatch fuel cb name? (exnValue o) q.st with
           | none => none
           | some q₂ => evalFinally fuel fin? ⟨q₂.out, q₂.st, true⟩)
    | .lit l =>
      (match l with
       | .str s0 =>
         if hasInterp s0.data then interpGo fuel s0.data "" s else okR (.str s0) s
       | .num m => okR (.num m) s
       | .bool b => okR (.bool b) s
       | .null => okR .null s
       | .undef => okR .undef s)
    | .load name => okR (getLocal s name) s
    | .parens e => evalNode fuel e s
    | .spread e => evalNode fuel e s
    | .arr elems => evalElems fuel elems [] s
    | .objN fields => evalFields fuel fields [] s
    | .func params body => okR (.closure (getFullScope s) params body) s
    | .unary op e =>
      seqR (evalNode fuel e s) fun v s₁ =>
      if op = "!" then okR (.bool (!truthy v)) s₁
      else if op = "-" then okR (jsNeg v) s₁
      else okR .undef s₁
    | .incDec pre op e =>
      if op = "--" ∨ op = "++" then
        (match e with
         | .load name =>
           let cur := getLocal s name
           let newv := if op = "++" then jsAdd cur (.num 1) else jsSub cur (.num 1)
           some ⟨.ok (if pre then newv else cur), setLocal s name newv, false⟩
         | .arrAccess o i =>
           seqR (evalNode fuel o s) fun ov s₁ =>
           seqR (evalNode fuel i s₁) fun iv s₂ =>
           let old := indexGet ov iv
           let newv := if op = "++" then jsAdd old (.num 1) else jsSub old (.num 1)
           okR (if pre then newv else old) s₂
         | .fieldAccess o f =>
           seqR (evalNode fuel o s) fun ov s₁ =>
           let old := fieldGet ov f
           let newv := if op = "++" then jsAdd old (.num 1) else jsSub old (.num 1)
           okR (if pre then newv else old) s₁
         | _ => exnR (.hostErr "Illegal assignment") s)
      else okR .undef s
    | .binop l op r =>
      if op = "&&" then
        seqR (evalNode fuel l s) fun v s₁ =>
        if truthy v then evalNode fuel r s₁ else okR v s₁
      else if op = "||" then
        seqR (evalNode fuel l s) fun v s₁ =>
        if truthy v then okR v s₁ else evalNode fuel r s₁
      else
        seqR (evalNode fuel l s) fun lv s₁ =>
        seqR (evalNode fuel r s₁) fun rv s₂ =>
        okR (binApply op lv rv) s₂
    | .assign l op r =>
      if op = "=" then
        (match l with
         | .load name =>
           seqR (evalNode fuel r s) fun v s₁ =>
           some ⟨.ok .undef, setLocal s₁ name v, false⟩
         | .arrAccess o i =>
           seqR (evalNode fuel o s) fun _ s₁ =>
           seqR (evalNode fuel i s₁) fun _ s₂ =>
           seqR (evalNode fuel r s₂) fun _ s₃ =>
           okR .undef s₃
         | .fieldAccess o _ =>
           seqR (evalNode fuel o s) fun _ s₁ =>
           seqR (evalNode fuel r s₁) fun _ s₂ =>
           okR .undef s₂
         | _ => exnR (.hostErr "Assignment failed") s)
      else if op = "+=" ∨ op = "-=" ∨ op = "*=" ∨ op = "/=" then
        (match l with
         | .load name =>
           let cur := getLocal s name
           seqR (evalNode fuel r s) fun v s₁ =>
           some ⟨.ok .undef, setLocal s₁ name (compoundOp op cur v), false⟩
         | .arrAccess o i =>
           seqR (evalNode fuel o s) fun _ s₁ =>
           seqR (evalNode fuel i s₁) fun _ s₂ =>
           seqR (evalNode fuel r s₂) fun _ s₃ =>
           okR .undef s₃
         | .fieldAccess o _ =>
           seqR (evalNode fuel o s) fun _ s₁ =>
           seqR (evalNode fuel r s₁) fun _ s₂ =>
           okR .undef s₂
         | _ => exnR (.hostErr "Assignment failed") s)
      else okR .undef s
    | .ternary c t e =>
      seqR (evalNode fuel c s) fun v s₁ =>
      if truthy v then evalNode fuel t s₁ else evalNode fuel e s₁
    | .arrAccess o i =>
      seqR (evalNode fuel o s) fun ov s₁ =>
      seqR (evalNode fuel i s₁) fun iv s₂ =>
      okR (indexGet ov iv) s₂
    | .fieldAccess o f =>
      seqR (evalNode fuel o s) fun ov s₁ =>
      okR (fieldGet ov f) s₁
    | .funcCall o args =>
      seqR (evalNode fuel o s) fun fv s₁ =>
      seqR (evalArgs fuel args [] s₁) fun avs s₂ =>
      (match fv, avs with
       | .closure κ ps b, .arr vs => invoke fuel κ ps b vs s₂
       | _, _ => exnR (.hostErr "obj.apply is not a function") s₂)
    | .methodCall o f args =>
      seqR (evalNode fuel o s) fun ov s₁ =>
      seqR (evalArgs fuel args [] s₁) fun avs s₂ =>
      (match fieldGet ov f, avs with
       | .closure κ ps b, .arr vs => invoke fuel κ ps b vs s₂
       | _, _ => exnR (.hostErr (f ++ " is not a function")) s₂)
    | .newN cn args =>
      seqR (evalArgs fuel args [] s) fun avs s₁ =>
      (match scopeGet s₁.global cn, avs with
       | .undef, _ => exnR (.hostErr (cn ++ " is not a constructor")) s₁
       | _, .arr vs => okR (.hostObj cn vs) s₁
       | _, _ => okR (.hostObj cn []) s₁)
    | .typeofN e =>
      seqR (evalNode fuel e s) fun v s₁ => okR (.str (typeofStr v)) s₁
    | .html tag? attrs children =>
      seqR (evalAttrs fuel attrs [] s) fun av s₁ =>
      seqR (evalChildren fuel children [] s₁) fun cv s₂ =>
      (match av, cv with
       | .obj afs, .arr cvs =>
         let comp := getLocal s₂ (tag?.getD "undefined")
         (match comp with
          | .closure _ _ _ => okR (.htmlElem comp afs cvs) s₂
          | _ =>
            okR (.htmlElem (match tag? with
                            | some t => .str t
                            | none => .undef) afs cvs) s₂)
       | _, _ => okR .undef s₂)
    | .htmlExpr e => evalNode fuel e s
    | .htmlText t => okR (.str t) s
    | .templateStr parts =>
      seqR (evalParts fuel parts [] s) fun pv s₁ =>
      (match pv with
       | .arr vs => okR (.str (joinEmpty vs)) s₁
       | _ => okR .undef s₁)
    | .templateContent c => okR (.str c) s
termination_by structural f _ _ => f

/-- The statement loop of `BlockNode.evaluate` (without its push/pop). -/
def evalStmtsB : Nat → List Node → State → OR
  | 0, _, _ => none
  | fuel + 1, ns, s =>
    match ns with
    | [] => okR .undef s
    | n :: rest =>
      seqR (evalNode fuel n s) fun _ s₁ => evalStmtsB fuel rest s₁
termination_by structural f _ _ => f

/-- `WhileNode.evaluate`. -/
def whileGo : Nat → Node → Node → State → OR
  | 0, _, _, _ => none
  | fuel + 1, c, b, s =>
    seqR (evalNode fuel c s) fun v s₁ =>
    if truthy v then
      seqR (evalNode fuel b s₁) fun _ s₂ => whileGo fuel c b s₂
    else okR .undef s₁
termination_by structural f _ _ _ => f

/-- `evaluateCatch` of `TryCatchNode.evaluate`: push the error binding when
named, run the catch block; the binding frame is popped only on normal
completion of the catch block. -/
def evalCatch : Nat → Node → Option String → Value → State → OR
  | 0, _, _, _, _ => none
  | fuel + 1, cb, name?, e, s =>
    match name? with
    | some nm =>
      (match evalNode fuel cb (pushScope (some [(nm, e)]) s) with
       | none => none
       | some q =>
         match q.out with
         | .ok _ => some ⟨.ok .undef, popScope q.st, q.caught⟩
         | _ => some q)
    | none =>
      (match evalNode fuel cb s with
       | none => none
       | some q =>
         match q.out with
         | .ok _ => some ⟨.ok .undef, q.st, q.caught⟩
         | _ => some q)
termination_by structural f _ _ _ _ => f

/-- The `finally` clause: runs on every path; its abrupt completion overrides
the try/catch result. -/
def evalFinally : Nat → Option Node → EvalRes → OR
  | 0, _, _ => none
  | fuel + 1, fin?, r =>
    match fin? with
    | none => some r
    | some f =>
      match evalNode fuel f r.st with
      | none => none
      | some qf =>
        match qf.out with
        | .ok _ => some ⟨r.out, qf.st, r.caught || qf.caught⟩
        | o => some ⟨o, qf.st, r.caught || qf.caught⟩
termination_by structural f _ _ => f

/-- `ArrayNode.evaluate`: left-to-right, `SpreadNode` elements flattened. -/
def evalElems : Nat → List Node → List Value → State → OR
  | 0, _, _, _ => none
  | fuel + 1, ns, acc, s =>
    match ns with
    | [] => okR (.arr acc) s
    | e :: rest =>
      match e with
      | .spread _ =>
        seqR (evalNode fuel e s) fun v s₁ =>
        (match spreadElems v with
         | some vs => evalElems fuel rest (acc ++ vs) s₁
         | none => exnR (.hostErr "value is not iterable") s₁)
      | _ =>
        seqR (evalNode fuel e s) fun v s₁ =>
        evalElems fuel rest (acc ++ [v]) s₁
termination_by structural f _ _ _ => f

/-- `this.args.map(arg => runtime.evaluateNode(arg))` (no spread handling at
call sites). -/
def evalArgs : Nat → List Node → List Value → State → OR
  | 0, _, _, _ => none
  | fuel + 1, ns, acc, s =>
    match ns with
    | [] => okR (.arr acc) s
    | e :: rest =>
      seqR (evalNode fuel e s) fun v s₁ =>
      evalArgs fuel rest (acc ++ [v]) s₁
termination_by structural f _ _ _ => f

/-- `ObjectNode.evaluate`'s field fold. -/
def evalFields : Nat → List ObjField → List (String × Value) → State → OR
  | 0, _, _, _ => none
  | fuel + 1, fs, acc, s =>
    match fs with
    | [] => okR (.obj acc) s
    | f :: rest =>
      match f with
      | .regular key v? =>
        (match v? with
         | some v =>
           seqR (evalNode fuel v s) fun vv s₁ =>
           evalFields fuel rest (scopeSet acc key vv) s₁
         | none => evalFields fuel rest (scopeSet acc key (getLocal s key)) s)
      | .dynamic k v =>
        seqR (evalNode fuel k s) fun kv s₁ =>
        seqR (evalNode fuel v s₁) fun vv s₂ =>
        evalFields fuel rest (scopeSet acc (jsToString kv) vv) s₂
      | .spreadF v =>
        seqR (evalNode fuel v s) fun vv s₁ =>
        evalFields fuel rest (objMergeSpread acc vv) s₁
termination_by structural f _ _ _ => f

/-- `HTMLNode.evaluate`'s attribute fold. -/
def evalAttrs : Nat → List (String × Node) → List (String × Value) → State → OR
  | 0, _, _, _ => none
  | fuel + 1, ats, acc, s =>
    match ats with
    | [] => okR (.obj acc) s
    | (key, nd) :: rest =>
      seqR (evalNode fuel nd s) fun v s₁ =>
      evalAttrs fuel rest (scopeSet acc key v) s₁
termination_by structural f _ _ _ => f

/-- `HTMLNode.evaluate`'s children map with the truthiness filter. -/
def evalChildren : Nat → List Node → List Value → State → OR
  | 0, _, _, _ => none
  | fuel + 1, ns, acc, s =>
    match ns with
    | [] => okR (.arr acc) s
    | e :: rest =>
      seqR (evalNode fuel e s) fun v s₁ =>
      evalChildren fuel rest (if truthy v then acc ++ [v] else acc) s₁
termination_by structural f _ _ _ => f

/-- `TemplateStringNode.evaluate`'s part map. -/
def evalParts : Nat → List Node → List Value → State → OR
  | 0, _, _, _ => none
  | fuel + 1, ns, acc, s =>
    match ns with
    | [] => okR (.arr acc) s
    | e :: rest =>
      seqR (evalNode fuel e s) fun v s₁ =>
      evalParts fuel rest (acc ++ [v]) s₁
termination_by structural f _ _ _ => f

/-- The invokable built by `FunctionNode.generateClosure`: push the closure,
the captured-scope frame and the parameter frame, marshal the arguments,
evaluate the body; pop all three on normal completion and on the
`ReturnValueException` (converted to the call's result) — but *not* when any
other exception unwinds. -/
def invoke : Nat → Scope → List VariableN → Node → List Value → State → OR
  | 0, _, _, _, _, _ => none
  | fuel + 1, κ, params, body, args, s =>
    let s₃ := pushScope (some []) (pushScope (some κ) { s with stack := s.stack + 1 })
    match marshallGo fuel params args 0 s₃ with
    | none => none
    | some qm =>
      match qm.out with
      | .ok _ =>
        (match evalNode fuel body qm.st with
         | none => none
         | some qb =>
           match qb.out with
           | .ok v =>
             some ⟨.ok v, popStack1 (popScope (popScope qb.st)), qm.caught || qb.caught⟩
           | .ret v =>
             some ⟨.ok v, popStack1 (popScope (popScope qb.st)), qm.caught || qb.caught⟩
           | .exn v => some ⟨.exn v, qb.st, qm.caught || qb.caught⟩)
      | _ => some ⟨qm.out, qm.st, true⟩
termination_by structural f _ _ _ _ _ => f

/-- `marshallArgs`' parameter loop (the surrounding `pushScope({})` is done by
`invoke`): each parameter is assigned its positional argument, or the
evaluated default when the argument is `undefined`. -/
def marshallGo : Nat → List VariableN → List Value → Nat → State → OR
  | 0, _, _, _, _ => none
  | fuel + 1, params, args, idx, s =>
    match params with
    | [] => okR .undef s
    | p :: rest =>
      match args.getD idx .undef with
      | .undef =>
        (match p.defaultValue with
         | some d =>
           seqR (evalNode fuel d s) fun dv s₁ =>
           seqR (assignVal fuel p dv s₁) fun _ s₂ =>
           marshallGo fuel rest args (idx + 1) s₂
         | none =>
           seqR (assignVal fuel p .undef s) fun _ s₁ =>
           marshallGo fuel rest args (idx + 1) s₁)
      | argv =>
        seqR (assignVal fuel p argv s) fun _ s₁ =>
        marshallGo fuel rest args (idx + 1) s₁
termination_by structural f _ _ _ _ => f

/-- `VariableNode.assignValue`. -/
def assignVal : Nat → VariableN → Value → State → OR
  | 0, _, _, _ => none
  | fuel + 1, v, value, s =>
    match v with
    | .ident name _ => some ⟨.ok .undef, setTopScope s name value, false⟩
    | .destructureArr vars _ => destrArrGo fuel vars 0 value s
    | .destructureObj vars _ => destrObjGo fuel vars (vars.map DestrVal.name) value s
termination_by structural f _ _ _ => f

/-- The indexed `forEach` of the array-destructure assignment (`none` entries
are holes and are skipped). -/
def destrArrGo : Nat → List (Option DestrVal) → Nat → Value → State → OR
  | 0, _, _, _, _ => none
  | fuel + 1, vars, idx, value, s =>
    match vars with
    | [] => okR .undef s
    | none :: rest => destrArrGo fuel rest (idx + 1) value s
    | some dv :: rest =>
      if dv.isRest then
        (match sliceFrom value idx with
         | some sliced =>
           destrArrGo fuel rest (idx + 1) value (setTopScope s dv.name sliced)
         | none => exnR (.hostErr "values.slice is not a function") s)
      else
        match arrIdx value idx with
        | .undef =>
          (match dv.defaultValue with
           | some d =>
             seqR (evalNode fuel d s) fun dvv s₁ =>
             destrArrGo fuel rest (idx + 1) value (setTopScope s₁ dv.name dvv)
           | none => destrArrGo fuel rest (idx + 1) value (setTopScope s dv.name .undef))
        | elem => destrArrGo fuel rest (idx + 1) value (setTopScope s dv.name elem)
termination_by structural f _ _ _ _ => f

/-- The `forEach` of the object-destructure assignment; `names` is the full
name list used by the rest entry's key filter. -/
def destrObjGo : Nat → List DestrVal → List String → Value → State → OR
  | 0, _, _, _, _ => none
  | fuel + 1, vars, names, value, s =>
    match vars with
    | [] => okR .undef s
    | dv :: rest =>
      if dv.isRest then
        let restObj : Value :=
          match value with
          | .obj fs => .obj (fs.filter (fun p => names.contains p.1 = false))
          | _ => .obj []
        destrObjGo fuel rest names value (setTopScope s dv.name restObj)
      else
        match fieldGet value dv.name with
        | .undef =>
          (match dv.defaultValue with
           | some d =>
             seqR (evalNode fuel d s) fun dvv s₁ =>
             destrObjGo fuel rest names value (setTopScope s₁ dv.name dvv)
           | none => destrObjGo fuel rest names value (setTopScope s dv.name .undef))
        | elem => destrObjGo fuel rest names value (setTopScope s dv.name elem)
termination_by structural f _ _ _ _ => f

/-- `VariableNode.evaluate`: evaluate the initialiser (when present), assign,
and return the initialiser's value. -/
def evalVariable : Nat → VariableN → State → OR
  | 0, _, _ => none
  | fuel + 1, v, s =>
    match v.defaultValue with
    | none => okR .undef s
    | some d =>
      seqR (evalNode fuel d s) fun dv s₁ =>
      seqR (assignVal fuel v dv s₁) fun _ s₂ =>
      some ⟨.ok dv, s₂, false⟩
termination_by structural f _ _ => f

/-- The `#{...}` interpolation scan of `LiteralNode`: each match is re-parsed
by `parseExpression` and evaluated; a non-match advances one character. -/
def interpGo : Nat → List Char → String → State → OR
  | 0, _, _, _ => none
  | fuel + 1, chars, acc, s =>
    match chars with
    | [] => okR (.str acc) s
    | c :: rest =>
      if c = '#' ∧ rest.headD ' ' = braceL then
        match takeInterpGo rest.tail "" with
        | some (content, rest') =>
          (match parseExpressionTop content fuel with
           | none => none
           | some nd =>
             seqR (evalNode fuel nd s) fun v s₁ =>
             interpGo fuel rest' (acc ++ jsToString v) s₁)
        | none => interpGo fuel rest (acc.push c) s
      else interpGo fuel rest (acc.push c) s
termination_by structural f _ _ _ => f

end

/-! ### Top-level entry points of `parser.ts` -/

/-- The statement loop of the exported `evaluate(input, runtime)`: the whole
loop sits in a `try` whose `catch` only logs, so the first abrupt completion
stops evaluation and is discarded (the state reached up to that point is
kept). -/
def runTopGo : Nat → List Node → State → Option State
  | 0, _, _ => none
  | fuel + 1, ns, s =>
    match ns with
    | [] => some s
    | n :: rest =>
      match evalNode fuel n s with
      | none => none
      | some q =>
        match q.out with
        | .ok _ => runTopGo fuel rest q.st
        | _ => some q.st

/-- The exported `evaluate(input, runtime)`: parsing happens *before* the
`try`, so parse errors propagate; evaluation failures never do. -/
def evaluateEntry (input : String) (s : State) (fuel : Nat) : Option (Except PError State) :=
  match parseProgram input fuel with
  | none => none
  | some (.error e) => some (.error e)
  | some (.ok ns) =>
    match runTopGo fuel ns s with
    | none => none
    | some s' => some (.ok s')

/-- Parse a program and evaluate its statements in order, surfacing the raw
outcome (the harness behind the end-to-end scenarios of spec §8: a scenario's
result is the payload of the `ret` unwind). -/
def runProgram (input : String) (s : State) (fuel : Nat) : Option (Except PError EvalRes) :=
  match parseProgram input fuel with
  | none => none
  | some (.error e) => some (.error e)
  | some (.ok ns) => (evalStmtsB fuel ns s).map .ok

/-! ### `toSource` (the printer the bundler drives) -/

/-- `instanceof ExpressionNode` (for `statementListToSource`'s `;` suffix). -/
def isExprNode : Node → Bool
  | .errorN _ => false
  | .noop => false
  | .varDecl _ _ => false
  | .importN _ _ _ _ => false
  | .exportN _ _ _ _ _ => false
  | .block _ => false
  | .ret _ => false
  | .ifN _ _ _ => false
  | .whileN _ _ => false
  | .throwN _ => false
  | .tryCatch _ _ _ _ => false
  | _ => true

/-- `instanceof ImportNode`. -/
def isImportNode : Node → Bool
  | .importN _ _ _ _ => true
  | _ => false

/-- `instanceof ExportNode`. -/
def isExportNode : Node → Bool
  | .exportN _ _ _ _ _ => true
  | _ => false

/-- Literal rendering of `LiteralNode.toSource`. -/
def litSrc : Lit → String
  | .str s => sq ++ s ++ sq
  | .num n => toString n
  | .bool b => if b then "true" else "false"
  | .null => "null"
  | .undef => "undefined"

mutual

/-- `toSource(bundler)` for every node (`ImportNode`/`ExportNode` keep the
base class's empty rendering; their bundler-aware variants live below). -/
def toSource : Node → String
  | .errorN _ => ""
  | .noop => ""
  | .varDecl isConst v =>
    (if isConst then "const" else "let") ++ " " ++ varSrc v ++ ";"
  | .importN _ _ _ _ => ""
  | .exportN _ _ _ _ _ => ""
  | .block stmts => "\x7b" ++ stmtListSrc stmts ++ "\x7d"
  | .ret v? =>
    "return" ++ (match v? with
                 | some v => " " ++ toSource v
                 | none => "") ++ ";"
  | .ifN c t e? =>
    "if (" ++ toSource c ++ ") " ++ toSource t ++
    (match e? with
     | some e => " else " ++ toSource e
     | none => "")
  | .whileN c b => "while (" ++ toSource c ++ ") " ++ toSource b
  | .throwN v => "throw " ++ toSource v
  | .tryCatch tb cb name? fin? =>
    "try " ++ toSource tb ++ " catch" ++
    (match name? with
     | some nm => " (" ++ nm ++ ")"
     | none => "") ++ " " ++ toSource cb ++
    (match fin? with
     | some f => " finally " ++ toSource f
     | none => "")
  | .lit l => litSrc l
  | .load name => name
  | .parens e => "(" ++ toSource e ++ ")"
  | .spread e => "..." ++ toSource e
  | .arr elems => "[" ++ exprListSrc elems ++ "]"
  | .objN fields => "\x7b" ++ fieldListSrc fields ++ "\x7d"
  | .func params body =>
    "(" ++ varListSrc params ++ ") => " ++ toSource body
  | .unary op e => op ++ toSource e
  | .incDec pre op e => if pre then op ++ toSource e else toSource e ++ op
  | .binop l op r => toSource l ++ " " ++ op ++ " " ++ toSource r
  | .assign l op r => toSource l ++ " " ++ op ++ " " ++ toSource r
  | .ternary c t e =>
    toSource c ++ " ? " ++ toSource t ++ " : " ++ toSource e
  | .arrAccess o i => toSource o ++ "[" ++ toSource i ++ "]"
  | .fieldAccess o f => toSource o ++ "." ++ f
  | .funcCall o args => toSource o ++ "(" ++ exprListSrc args ++ ")"
  | .methodCall o f args =>
    toSource o ++ "." ++ f ++ "(" ++ exprListSrc args ++ ")"
  | .newN cn args => "new " ++ cn ++ "(" ++ exprListSrc args ++ ")"
  | .typeofN e => "typeof " ++ toSource e
  | .html tag? attrs children =>
    let tagStr := tag?.getD "undefined"
    let attrStr := attrListSrc attrs
    if children.isEmpty then
      "<" ++ tagStr ++ " " ++ attrStr ++ " />"
    else
      "<" ++ tagStr ++ " " ++ attrStr ++ ">" ++ childListSrc children ++
      "</" ++ tagStr ++ ">"
  | .htmlExpr e => "\x7b" ++ toSource e ++ "\x7d"
  | .htmlText t => t
  | .templateStr parts =>
    String.singleton backtickCh ++ partListSrc parts ++ String.singleton backtickCh
  | .templateContent c => c

/-- `statementListToSource`. -/
def stmtListSrc : List Node → String
  | [] => ""
  | n :: rest =>
    toSource n ++ (if isExprNode n then ";" else "") ++ stmtListSrc rest

/-- `expressionListToSource` (comma-separated). -/
def exprListSrc : List Node → String
  | [] => ""
  | [n] => toSource n
  | n :: rest => toSource n ++ ", " ++ exprListSrc rest

/-- `VariableNode.toSource`.  A hole in an array destructure renders as the
empty string (the source would crash with a host `TypeError` there; no
bundled module in this development contains holes). -/
def varSrc : VariableN → String
  | .ident name d? => name ++ varDefaultSrc d?
  | .destructureArr vars d? =>
    "[" ++ destrListSrcA vars ++ "]" ++ varDefaultSrc d?
  | .destructureObj vars d? =>
    "\x7b" ++ destrListSrcO vars ++ "\x7d" ++ varDefaultSrc d?

/-- ` = default` when present. -/
def varDefaultSrc : Option Node → String
  | some d => " = " ++ toSource d
  | none => ""

/-- The destructured-value list rendering (array form, holes render empty —
the source would crash with a host `TypeError` on a hole). -/
def destrListSrcA : List (Option DestrVal) → String
  | [] => ""
  | [v] => destrOneSrcA v
  | v :: rest => destrOneSrcA v ++ ", " ++ destrListSrcA rest

/-- The destructured-value list rendering (object form). -/
def destrListSrcO : List DestrVal → String
  | [] => ""
  | [v] => destrOneSrc v
  | v :: rest => destrOneSrc v ++ ", " ++ destrListSrcO rest

/-- One possibly-hole destructured value. -/
def destrOneSrcA : Option DestrVal → String
  | none => ""
  | some v => destrOneSrc v

/-- One destructured-value rendering. -/
def destrOneSrc : DestrVal → String
  | .mk name d? isRest =>
    (if isRest then "..." else "") ++ name ++
    (match d? with
     | some d => " = " ++ toSource d
     | none => "")

/-- The parameter-list rendering of `FunctionNode.toSource`. -/
def varListSrc : List VariableN → String
  | [] => ""
  | [v] => varSrc v
  | v :: rest => varSrc v ++ ", " ++ varListSrc rest

/-- `ObjectNode.toSource`'s field list. -/
def fieldListSrc : List ObjField → String
  | [] => ""
  | [f] => fieldSrc f
  | f :: rest => fieldSrc f ++ "," ++ fieldListSrc rest

/-- One object-literal field (regular keys are always strings, hence always
quoted, exactly as the source's `typeof key === 'string'` check yields). -/
def fieldSrc : ObjField → String
  | .regular key v? =>
    sq ++ key ++ sq ++
    (match v? with
     | some v => ": " ++ toSource v
     | none => "")
  | .dynamic k v => "[" ++ toSource k ++ "]" ++ ": " ++ toSource v
  | .spreadF v => "..." ++ toSource v

/-- `HTMLNode.toSource`'s attribute rendering: a plain string literal renders
quoted, anything else braced, entries joined by spaces. -/
def attrListSrc : List (String × Node) → String
  | [] => ""
  | (k, .lit (.str s)) :: rest =>
    k ++ "=\"" ++ s ++ "\"" ++ (if rest.isEmpty then "" else " ") ++ attrListSrc rest
  | (k, v) :: rest =>
    k ++ "=\x7b" ++ toSource v ++ "\x7d" ++ (if rest.isEmpty then "" else " ") ++
    attrListSrc rest

/-- HTML children rendering. -/
def childListSrc : List Node → String
  | [] => ""
  | c :: rest => toSource c ++ childListSrc rest

/-- Template-string part rendering (content parts raw, others braced). -/
def partListSrc : List Node → String
  | [] => ""
  | .templateContent c :: rest => c ++ partListSrc rest
  | p :: rest => "$\x7b" ++ toSource p ++ "\x7d" ++ partListSrc rest

end

/-! ### Bundler

The embedded bundler is the one of `bundler.ts`: contexts are a stack, every
`handleSourceImport` recurses into `bundleFile` unconditionally — there is no
cache of already-bundled modules — and each finished module is appended to
`files`.  The external import resolver composed with `new Parser(...).parse()`
is a single callback `(currentDir, fileName) ↦ parsed module body`; `none`
makes the bundler reject. -/

abbrev Resolver := String → String → Option (List Node)

/-- `IBundlerFile`. -/
structure BFile where
  name : String
  content : String
  hasExports : Bool
  hasImports : Bool
deriving DecidableEq, Repr

/-- `IBundlerContext` (`exports` entries keep the possibly-undefined name of
`addExport(undefined, alias)` from a `default as` re-export). -/
structure BContext where
  currentDir : String
  exports : List (Option String × Option String)
  defaultExport : Option String
  hasImports : Bool

/-- The `Bundler`'s mutable fields. -/
structure BState where
  context : List BContext
  files : List BFile

/-- `getContext()` (top of the stack). -/
def bTopCtx (bs : BState) : BContext :=
  bs.context.headD ⟨"", [], none, false⟩

/-- Update the top context. -/
def bSetTop (bs : BState) (f : BContext → BContext) : BState :=
  match bs.context with
  | [] => bs
  | c :: rest => { bs with context := f c :: rest }

/-- A JavaScript-coerced optional string (`undefined + ''` renders as
`"undefined"`). -/
def optName : Option String → String
  | some n => n
  | none => "undefined"

/-- The named-exports branch of `formatExports`. -/
def formatNamedExports (ctx : BContext) : String :=
  if ctx.exports.isEmpty then ""
  else
    "module.exports = \x7b" ++
    String.intercalate ", "
      (ctx.exports.map (fun e =>
        optName e.1 ++ (match e.2 with
                        | some a => ": " ++ a
                        | none => ""))) ++
    "\x7d;"

/-- `formatExports` (note `if (this.getContext().defaultExport)` is a string
truthiness test, so an empty default export falls through to the named
branch). -/
def formatExports (ctx : BContext) : String :=
  match ctx.defaultExport with
  | some d =>
    if d ≠ "" then "module.exports = " ++ d ++ ";"
    else formatNamedExports ctx
  | none => formatNamedExports ctx

/-- The alias re-bindings appended by `importToSource`. -/
def aliasSrc (objects : List ImportObj) : String :=
  (objects.filterMap (fun o => o.aliasName.map (fun a => (o.name, a)))).foldl
    (fun acc p => acc ++ "const " ++ p.2 ++ " = " ++ p.1 ++ ";") ""

mutual

/-- `Bundler.bundleFile`: push a context, resolve and parse, emit the module
body, record the file, pop the context.  No cache: a module is re-bundled on
every import of it, and an import cycle recurses forever (exhausting any
fuel). -/
def bundleFile : Nat → Resolver → String → String → BState → Option (Except String BState)
  | 0, _, _, _, _ => none
  | fuel + 1, resolve, currentDir, fileName, bs =>
    let bs₁ : BState := { bs with context := ⟨currentDir, [], none, false⟩ :: bs.context }
    match resolve currentDir fileName with
    | none => some (.error ("could not resolve " ++ fileName))
    | some nodes =>
      match fileToSource fuel resolve nodes bs₁ with
      | none => none
      | some (.error e) => some (.error e)
      | some (.ok (content, bs₂)) =>
        let ctx := bTopCtx bs₂
        let content' := content ++ formatExports ctx
        some (.ok
          { context := bs₂.context.tail,
            files := bs₂.files ++
              [⟨fileName, content',
                ctx.defaultExport.isSome || !ctx.exports.isEmpty,
                ctx.hasImports⟩] })
termination_by structural f _ _ _ _ => f

/-- `fileToSource`: import nodes first (in order), then the rest. -/
def fileToSource : Nat → Resolver → List Node → BState → Option (Except String (String × BState))
  | 0, _, _, _ => none
  | fuel + 1, resolve, nodes, bs =>
    match importsSrc fuel resolve (nodes.filter isImportNode) "" bs with
    | none => none
    | some (.error e) => some (.error e)
    | some (.ok (s₁, bs₁)) =>
      othersSrc fuel resolve (nodes.filter (fun n => !isImportNode n)) s₁ bs₁
termination_by structural f _ _ _ => f

/-- The import loop of `fileToSource`. -/
def importsSrc : Nat → Resolver → List Node → String → BState → Option (Except String (String × BState))
  | 0, _, _, _, _ => none
  | fuel + 1, resolve, nodes, acc, bs =>
    match nodes with
    | [] => some (.ok (acc, bs))
    | n :: rest =>
      match importToSource fuel resolve n bs with
      | none => none
      | some (.error e) => some (.error e)
      | some (.ok (s₁, bs₁)) => importsSrc fuel resolve rest (acc ++ s₁) bs₁
termination_by structural f _ _ _ _ => f

/-- The non-import loop of `fileToSource`. -/
def othersSrc : Nat → Resolver → List Node → String → BState → Option (Except String (String × BState))
  | 0, _, _, _, _ => none
  | fuel + 1, resolve, nodes, acc, bs =>
    match nodes with
    | [] => some (.ok (acc, bs))
    | n :: rest =>
      if isExportNode n then
        match exportToSource fuel resolve n bs with
        | none => none
        | some (.error e) => some (.error e)
        | some (.ok (s₁, bs₁)) => othersSrc fuel resolve rest (acc ++ s₁) bs₁
      else
        othersSrc fuel resolve rest
          (acc ++ toSource n ++ (if isExprNode n then ";" else "")) bs
termination_by structural f _ _ _ _ => f

/-- `Bundler.handleSourceImport`: mark the current context as importing,
recurse into `bundleFile` for the imported module (unconditionally), and
rewrite to the `__eco_require__` call. -/
def handleSourceImport : Nat → Resolver → String → BState → Option (Except String (String × BState))
  | 0, _, _, _ => none
  | fuel + 1, resolve, filename, bs =>
    let bs₁ := bSetTop bs (fun c => { c with hasImports := true })
    match bundleFile fuel resolve (bTopCtx bs₁).currentDir filename bs₁ with
    | none => none
    | some (.error e) => some (.error e)
    | some (.ok bs₂) =>
      some (.ok ("__eco_require__(" ++ sq ++ filename ++ sq ++ ")", bs₂))
termination_by structural f _ _ _ => f

/-- `ImportNode.importToSource`.  A bare `import 'file'` never resolves its
promise in the source (none of its three shapes matches); that hang is
modelled as fuel exhaustion. -/
def importToSource : Nat → Resolver → Node → BState → Option (Except String (String × BState))
  | 0, _, _, _ => none
  | fuel + 1, resolve, n, bs =>
    match n with
    | .importN defaultName namespaceName objects fromFile =>
      (match handleSourceImport fuel resolve fromFile bs with
       | none => none
       | some (.error e) => some (.error e)
       | some (.ok (imp, bs₁)) =>
         match defaultName with
         | some d => some (.ok ("const " ++ d ++ " = " ++ imp ++ ";", bs₁))
         | none =>
           match namespaceName with
           | some ns => some (.ok ("const " ++ ns ++ " = " ++ imp ++ ";", bs₁))
           | none =>
             match objects with
             | some objs =>
               some (.ok
                 ("const \x7b" ++
                  String.intercalate ", " (objs.map (fun o => o.name)) ++
                  "\x7d = " ++ imp ++ ";" ++ aliasSrc objs, bs₁))
             | none => none)
    | _ => some (.ok ("", bs))
termination_by structural f _ _ _ => f

/-- `ExportNode.exportToSource`. -/
def exportToSource : Nat → Resolver → Node → BState → Option (Except String (String × BState))
  | 0, _, _, _ => none
  | fuel + 1, resolve, n, bs =>
    match n with
    | .exportN defaultValue varDeclNode fromFileName fromAllExports fromNamedExports =>
      (match defaultValue with
       | some dv =>
         some (.ok ("", bSetTop bs (fun c => { c with defaultExport := some (toSource dv) })))
       | none =>
         match varDeclNode with
         | some vd =>
           let names : List (Option String) :=
             match vd with
             | .varDecl _ (.ident nm _) => [some nm]
             | .varDecl _ (.destructureArr vars _) =>
               vars.filterMap (fun v? => v?.map (fun v => some v.name))
             | .varDecl _ (.destructureObj vars _) => vars.map (fun v => some v.name)
             | _ => []
           let bs₁ := names.foldl
             (fun b nm => bSetTop b (fun c => { c with exports := c.exports ++ [(nm, none)] })) bs
           some (.ok (toSource vd, bs₁))
         | none =>
           match fromFileName with
           | some fileName =>
             (match handleSourceImport fuel resolve fileName bs with
              | none => none
              | some (.error e) => some (.error e)
              | some (.ok (imp, bs₁)) =>
                if fromAllExports then
                  some (.ok ("", bSetTop bs₁ (fun c => { c with defaultExport := some imp })))
                else
                  let bs₂ := fromNamedExports.foldl
                    (fun b e =>
                      bSetTop b (fun c => { c with exports := c.exports ++ [(e.name, e.aliasName)] }))
                    bs₁
                  some (.ok
                    ("const \x7b" ++
                     String.intercalate ", " (fromNamedExports.map (fun e => optName e.name)) ++
                     "\x7d = " ++ imp ++ ";", bs₂)))
           | none => none)
    | _ => some (.ok ("", bs))
termination_by structural f _ _ _ => f

end

/-- `generateFileModule` of `Bundler.bundle`. -/
def generateFileModule (file : BFile) : String :=
  "\"" ++ file.name ++ "\": (" ++
  String.intercalate ", "
    ((if file.hasExports then "module" else "_") ::
     (if file.hasImports then ["__eco_require__"] else [])) ++
  ") => \x7b" ++ file.content ++ "\x7d"

/-- The `SKELETON` template with entry point and modules substituted (the
external `prettier.format` pass is the identity here). -/
def skeleton (entry modules : String) : String :=
  "((modules) => \x7bconst cachedModules = \x7b\x7d;const __eco_require__ = (moduleId) => \x7bif (cachedModules[moduleId]) \x7breturn cachedModules[moduleId].exports;\x7dconst module = \x7bexports: \x7b\x7d\x7d;cachedModules[moduleId] = module;modules[moduleId](module, __eco_require__);return module.exports;\x7d;return __eco_require__(\"" ++
  entry ++ "\");\x7d)(\x7b" ++ modules ++ "\x7d);"

/-- `Bundler.bundle`. -/
def bundle (fuel : Nat) (resolve : Resolver) (currentDir fileName : String) :
    Option (Except String (String × BState)) :=
  match bundleFile fuel resolve currentDir fileName ⟨[], []⟩ with
  | none => none
  | some (.error e) => some (.error e)
  | some (.ok bs) =>
    some (.ok
      (skeleton fileName
        (String.intercalate ", " (bs.files.map generateFileModule)), bs))

/-! ### The stack-depth invariant

`sig` is the observable resource pair (scope-stack depth, closure-stack
depth).  `GoodP s q` says: when the evaluation caught nothing and finished
normally or via the return signal, both depths are restored.  The exception
paths are exactly where the source fails to pop (see the C1 theorems). -/

/-- The completion is `ok` or `ret` (not an exception). -/
def okOrRet : Outcome → Prop
  | .exn _ => False
  | _ => True

/-- Scope-stack depth and closure-stack depth. -/
def sig (s : State) : Nat × Nat :=
  (s.scopes.length, s.stack)

/-- Catch-free normal-or-return completions restore both depths. -/
def GoodP (s : State) (q : EvalRes) : Prop :=
  q.caught = false → okOrRet q.out → sig q.st = sig s

theorem good_here {s : State} {o : Outcome} {c : Bool} : GoodP s ⟨o, s, c⟩ :=
  fun _ _ => rfl

theorem good_sig {s s' : State} {o : Outcome} {c : Bool} (h : sig s' = sig s) :
    GoodP s ⟨o, s', c⟩ :=
  fun _ _ => h

theorem good_trans {s s' : State} {q : EvalRes} (h : sig s' = sig s)
    (hq : GoodP s' q) : GoodP s q :=
  fun hc ho => (hq hc ho).trans h

theorem setLocalList_length (l : List Scope) (name : String) (v : Value) :
    (setLocalList l name v).length = l.length := by
  induction l with
  | nil => rfl
  | cons sc rest ih =>
    simp only [setLocalList]
    split <;> simp [ih]

theorem sig_setLocal (s : State) (name : String) (v : Value) :
    sig (setLocal s name v) = sig s := by
  simp [sig, setLocal, setLocalList_length]

theorem sig_setTopScope (s : State) (name : String) (v : Value) :
    sig (setTopScope s name v) = sig s := by
  unfold setTopScope
  cases h : s.scopes <;> simp [sig, h]

theorem sig_pushScope (sc : Option Scope) (s : State) :
    sig (pushScope sc s) = (s.scopes.length + 1, s.stack) := by
  simp [sig, pushScope]

/-- The binding lemma for `seqR`: a good first step followed by a pointwise
good continuation is good. -/
theorem seqR_good {s : State} {r : OR} {k : Value → State → OR}
    (h₁ : ∀ q, r = some q → GoodP s q)
    (h₂ : ∀ v s₁, r = some ⟨.ok v, s₁, false⟩ →
      ∀ q, k v s₁ = some q → GoodP s₁ q) :
    ∀ q, seqR r k = some q → GoodP s q := by
  intro q hq
  unfold seqR at hq
  match hr : r, hq with
  | some ⟨.ret v, s₁, c⟩, hq =>
    simp only at hq
    cases hq
    exact h₁ _ rfl
  | some ⟨.exn v, s₁, c⟩, hq =>
    simp only at hq
    cases hq
    exact h₁ _ rfl
  | some ⟨.ok v, s₁, c⟩, hq =>
    simp only [orFlag] at hq
    match hk : k v s₁, hq with
    | some q₂, hq =>
      simp only [Option.map_some'] at hq
      cases hq
      intro hc ho
      simp only [Bool.or_eq_false_iff] at hc
      obtain ⟨hc₁, hc₂⟩ := hc
      subst hc₁
      have e₁ := h₁ _ rfl rfl trivial
      have e₂ := h₂ v s₁ rfl q₂ hk hc₂ ho
      exact e₂.trans e₁

/-- The full depth-restoration invariant, for every entry point of the
interpreter's mutual recursion (the `evalFinally` conjunct is relative to the
state its input result carries). -/
def GoodAll (fuel : Nat) : Prop :=
  (∀ n s q, evalNode fuel n s = some q → GoodP s q) ∧
  (∀ ns s q, evalStmtsB fuel ns s = some q → GoodP s q) ∧
  (∀ c b s q, whileGo fuel c b s = some q → GoodP s q) ∧
  (∀ fin? r q, evalFinally fuel fin? r = some q → q.caught = false →
    okOrRet q.out → sig q.st = sig r.st ∧ r.caught = false) ∧
  (∀ es acc s q, evalElems fuel es acc s = some q → GoodP s q) ∧
  (∀ es acc s q, evalArgs fuel es acc s = some q → GoodP s q) ∧
  (∀ fs acc s q, evalFields fuel fs acc s = some q → GoodP s q) ∧
  (∀ ats acc s q, evalAttrs fuel ats acc s = some q → GoodP s q) ∧
  (∀ cs acc s q, evalChildren fuel cs acc s = some q → GoodP s q) ∧
  (∀ ps acc s q, evalParts fuel ps acc s = some q → GoodP s q) ∧
  (∀ κ ps b args s q, invoke fuel κ ps b args s = some q → GoodP s q) ∧
  (∀ ps args idx s q, marshallGo fuel ps args idx s = some q → GoodP s q) ∧
  (∀ v val s q, assignVal fuel v val s = some q → GoodP s q) ∧
  (∀ vars idx val s q, destrArrGo fuel vars idx val s = some q → GoodP s q) ∧
  (∀ vars names val s q, destrObjGo fuel vars names val s = some q → GoodP s q) ∧
  (∀ v s q, evalVariable fuel v s = some q → GoodP s q) ∧
  (∀ cs acc s q, interpGo fuel cs acc s = some q → GoodP s q)

set_option maxHeartbeats 4000000 in
theorem goodAll : ∀ fuel, GoodAll fuel := by
  intro fuel
  induction fuel with
  | zero =>
    exact ⟨fun n s q h => by simp [evalNode] at h,
           fun ns s q h => by simp [evalStmtsB] at h,
           fun c b s q h => by simp [whileGo] at h,
           fun fin? r q h => by simp [evalFinally] at h,
           fun es acc s q h => by simp [evalElems] at h,
           fun es acc s q h => by simp [evalArgs] at h,
           fun fs acc s q h => by simp [evalFields] at h,
           fun ats acc s q h => by simp [evalAttrs] at h,
           fun cs acc s q h => by simp [evalChildren] at h,
           fun ps acc s q h => by simp [evalParts] at h,
           fun κ ps b args s q h => by simp [invoke] at h,
           fun ps args idx s q h => by simp [marshallGo] at h,
           fun v val s q h => by simp [assignVal] at h,
           fun vars idx val s q h => by simp [destrArrGo] at h,
           fun vars names val s q h => by simp [destrObjGo] at h,
           fun v s q h => by simp [evalVariable] at h,
           fun cs acc s q h => by simp [interpGo] at h⟩
  | succ fuel ih =>
    obtain ⟨ihE, ihS, ihW, ihF, ihEl, ihA, ihFl, ihAt, ihCh, ihPt, ihI, ihM,
      ihAs, ihDA, ihDO, ihV, ihIn⟩ := ih
    refine ⟨?_, ?_, ?_, ?_, ?_, ?_, ?_, ?_, ?_, ?_, ?_, ?_, ?_, ?_, ?_, ?_, ?_⟩
    · -- evalNode
      intro n s q h
      cases n with
      | errorN msg => simp only [evalNode, okR] at h; cases h; exact good_here
      | noop => simp only [evalNode, okR] at h; cases h; exact good_here
      | varDecl isConst v => simp only [evalNode] at h; exact ihV _ _ _ h
      | importN a b c d => simp only [evalNode, okR] at h; cases h; exact good_here
      | exportN a b c d e => simp only [evalNode, okR] at h; cases h; exact good_here
      | block stmts =>
        simp only [evalNode] at h
        match hB : evalStmtsB fuel stmts (pushScope none s), h with
        | none, h => exact absurd h (by simp)
        | some ⟨o, stB, cB⟩, h =>
          have hg := ihS _ _ _ hB
          match o, h with
          | .ok v, h =>
            simp only at h
            cases h
            intro hc _
            have e₁ := hg hc trivial
            rw [sig_pushScope] at e₁
            simp only [sig, Prod.mk.injEq] at e₁ ⊢
            simp [popScope, e₁.1, e₁.2]
          | .ret v, h =>
            simp only at h
            cases h
            intro hc _
            have e₁ := hg hc trivial
            rw [sig_pushScope] at e₁
            simp only [sig, Prod.mk.injEq] at e₁ ⊢
            simp [popScope, e₁.1, e₁.2]
          | .exn v, h =>
            simp only at h
            cases h
            intro _ ho
            exact absurd ho (by simp [okOrRet])
      | ret v? =>
        simp only [evalNode] at h
        match v?, h with
        | none, h => cases h; exact good_here
        | some e, h =>
          refine seqR_good (fun q hq => ihE _ _ _ hq) ?_ _ h
          intro v s₁ _ q hk
          cases hk
          exact good_here
      | ifN c t e? =>
        simp only [evalNode] at h
        refine seqR_good (fun q hq => ihE _ _ _ hq) ?_ _ h
        intro v s₁ _ q hk
        split at hk
        · refine seqR_good (fun q hq => ihE _ _ _ hq) ?_ _ hk
          intro w s₂ _ q hk₂
          simp only [okR] at hk₂; cases hk₂; exact good_here
        · match e?, hk with
          | some e, hk =>
            refine seqR_good (fun q hq => ihE _ _ _ hq) ?_ _ hk
            intro w s₂ _ q hk₂
            simp only [okR] at hk₂; cases hk₂; exact good_here
          | none, hk => simp only [okR] at hk; cases hk; exact good_here
      | whileN c b => simp only [evalNode] at h; exact ihW _ _ _ _ h
      | throwN e =>
        simp only [evalNode] at h
        refine seqR_good (fun q hq => ihE _ _ _ hq) ?_ _ h
        intro v s₁ _ q hk
        split at hk <;> (cases hk; exact good_here)
      | tryCatch tb cb name? fin? =>
        simp only [evalNode] at h
        match hT : evalNode fuel tb s, h with
        | none, h => exact absurd h (by simp)
        | some ⟨oT, stT, cT⟩, h =>
          have hgT := ihE _ _ _ hT
          match oT, h with
          | .ok v, h =>
            simp only at h
            intro hc ho
            obtain ⟨e₁, e₂⟩ := ihF _ _ _ h hc ho
            exact e₁.trans (hgT e₂ trivial)
          | .ret v, h =>
            simp only at h
            match hC : evalCatch fuel cb name? (exnValue (.ret v)) stT, h with
            | none, h => exact absurd h (by simp)
            | some q₂, h =>
              simp only at h
              intro hc ho
              obtain ⟨_, e₂⟩ := ihF _ _ _ h hc ho
              exact absurd e₂ (by simp)
          | .exn v, h =>
            simp only at h
            match hC : evalCatch fuel cb name? (exnValue (.exn v)) stT, h with
            | none, h => exact absurd h (by simp)
            | some q₂, h =>
              simp only at h
              intro hc ho
              obtain ⟨_, e₂⟩ := ihF _ _ _ h hc ho
              exact absurd e₂ (by simp)
      | lit l =>
        simp only [evalNode] at h
        cases l with
        | str s0 =>
          simp only at h
          split at h
          · exact ihIn _ _ _ _ h
          · simp only [okR] at h; cases h; exact good_here
        | num m => simp only [okR] at h; cases h; exact good_here
        | bool b => simp only [okR] at h; cases h; exact good_here
        | null => simp only [okR] at h; cases h; exact good_here
        | undef => simp only [okR] at h; cases h; exact good_here
      | load name => simp only [evalNode, okR] at h; cases h; exact good_here
      | parens e => simp only [evalNode] at h; exact ihE _ _ _ h
      | spread e => simp only [evalNode] at h; exact ihE _ _ _ h
      | arr elems => simp only [evalNode] at h; exact ihEl _ _ _ _ h
      | objN fields => simp only [evalNode] at h; exact ihFl _ _ _ _ h
      | func params body => simp only [evalNode, okR] at h; cases h; exact good_here
      | unary op e =>
        simp only [evalNode] at h
        refine seqR_good (fun q hq => ihE _ _ _ hq) ?_ _ h
        intro v s₁ _ q hk
        split at hk
        · simp only [okR] at hk; cases hk; exact good_here
        · split at hk <;> (simp only [okR] at hk; cases hk; exact good_here)
      | incDec pre op e =>
        simp only [evalNode] at h
        split at h
        · split at h
          · cases h; exact good_sig (sig_setLocal _ _ _)
          · refine seqR_good (fun q hq => ihE _ _ _ hq) ?_ _ h
            intro v s₁ _ q hk
            refine seqR_good (fun q hq => ihE _ _ _ hq) ?_ _ hk
            intro w s₂ _ q hk₂
            simp only [okR] at hk₂; cases hk₂; exact good_here
          · refine seqR_good (fun q hq => ihE _ _ _ hq) ?_ _ h
            intro v s₁ _ q hk
            simp only [okR] at hk; cases hk; exact good_here
          · simp only [exnR] at h; cases h; exact good_here
        · simp only [okR] at h; cases h; exact good_here
      | binop l op r =>
        simp only [evalNode] at h
        split at h
        · refine seqR_good (fun q hq => ihE _ _ _ hq) ?_ _ h
          intro v s₁ _ q hk
          split at hk
          · exact ihE _ _ _ hk
          · simp only [okR] at hk; cases hk; exact good_here
        · split at h
          · refine seqR_good (fun q hq => ihE _ _ _ hq) ?_ _ h
            intro v s₁ _ q hk
            split at hk
            · simp only [okR] at hk; cases hk; exact good_here
            · exact ihE _ _ _ hk
          · refine seqR_good (fun q hq => ihE _ _ _ hq) ?_ _ h
            intro v s₁ _ q hk
            refine seqR_good (fun q hq => ihE _ _ _ hq) ?_ _ hk
            intro w s₂ _ q hk₂
            simp only [okR] at hk₂; cases hk₂; exact good_here
      | assign l op r =>
        simp only [evalNode] at h
        split at h
        · split at h
          · refine seqR_good (fun q hq => ihE _ _ _ hq) ?_ _ h
            intro v s₁ _ q hk
            cases hk
            exact good_sig (sig_setLocal _ _ _)
          · refine seqR_good (fun q hq => ihE _ _ _ hq) ?_ _ h
            intro v s₁ _ q hk
            refine seqR_good (fun q hq => ihE _ _ _ hq) ?_ _ hk
            intro w s₂ _ q hk₂
            refine seqR_good (fun q hq => ihE _ _ _ hq) ?_ _ hk₂
            intro u s₃ _ q hk₃
            simp only [okR] at hk₃; cases hk₃; exact good_here
          · refine seqR_good (fun q hq => ihE _ _ _ hq) ?_ _ h
            intro v s₁ _ q hk
            refine seqR_good (fun q hq => ihE _ _ _ hq) ?_ _ hk
            intro w s₂ _ q hk₂
            simp only [okR] at hk₂; cases hk₂; exact good_here
          · simp only [exnR] at h; cases h; exact good_here
        · split at h
          · split at h
            · refine seqR_good (fun q hq => ihE _ _ _ hq) ?_ _ h
              intro v s₁ _ q hk
              cases hk
              exact good_sig (sig_setLocal _ _ _)
            · refine seqR_good (fun q hq => ihE _ _ _ hq) ?_ _ h
              intro v s₁ _ q hk
              refine seqR_good (fun q hq => ihE _ _ _ hq) ?_ _ hk
              intro w s₂ _ q hk₂
              refine seqR_good (fun q hq => ihE _ _ _ hq) ?_ _ hk₂
              intro u s₃ _ q hk₃
              simp only [okR] at hk₃; cases hk₃; exact good_here
            · refine seqR_good (fun q hq => ihE _ _ _ hq) ?_ _ h
              intro v s₁ _ q hk
              refine seqR_good (fun q hq => ihE _ _ _ hq) ?_ _ hk
              intro w s₂ _ q hk₂
              simp only [okR] at hk₂; cases hk₂; exact good_here
            · simp only [exnR] at h; cases h; exact good_here
          · simp only [okR] at h; cases h; exact good_here
      | ternary c t e =>
        simp only [evalNode] at h
        refine seqR_good (fun q hq => ihE _ _ _ hq) ?_ _ h
        intro v s₁ _ q hk
        split at hk
        · exact ihE _ _ _ hk
        · exact ihE _ _ _ hk
      | arrAccess o i =>
        simp only [evalNode] at h
        refine seqR_good (fun q hq => ihE _ _ _ hq) ?_ _ h
        intro v s₁ _ q hk
        refine seqR_good (fun q hq => ihE _ _ _ hq) ?_ _ hk
        intro w s₂ _ q hk₂
        simp only [okR] at hk₂; cases hk₂; exact good_here
      | fieldAccess o f =>
        simp only [evalNode] at h
        refine seqR_good (fun q hq => ihE _ _ _ hq) ?_ _ h
        intro v s₁ _ q hk
        simp only [okR] at hk; cases hk; exact good_here
      | funcCall o args =>
        simp only [evalNode] at h
        refine seqR_good (fun q hq => ihE _ _ _ hq) ?_ _ h
        intro fv s₁ _ q hk
        refine seqR_good (fun q hq => ihA _ _ _ _ hq) ?_ _ hk
        intro avs s₂ _ q hk₂
        split at hk₂
        · exact ihI _ _ _ _ _ _ hk₂
        · simp only [exnR] at hk₂; cases hk₂; exact good_here
      | methodCall o f args =>
        simp only [evalNode] at h
        refine seqR_good (fun q hq => ihE _ _ _ hq) ?_ _ h
        intro ov s₁ _ q hk
        refine seqR_good (fun q hq => ihA _ _ _ _ hq) ?_ _ hk
        intro avs s₂ _ q hk₂
        split at hk₂
        · exact ihI _ _ _ _ _ _ hk₂
        · simp only [exnR] at hk₂; cases hk₂; exact good_here
      | newN cn args =>
        simp only [evalNode] at h
        refine seqR_good (fun q hq => ihA _ _ _ _ hq) ?_ _ h
        intro avs s₁ _ q hk
        split at hk <;>
          first
          | (simp only [exnR] at hk; cases hk; exact good_here)
          | (simp only [okR] at hk; cases hk; exact good_here)
      | typeofN e =>
        simp only [evalNode] at h
        refine seqR_good (fun q hq => ihE _ _ _ hq) ?_ _ h
        intro v s₁ _ q hk
        simp only [okR] at hk; cases hk; exact good_here
      | html tag? attrs children =>
        simp only [evalNode] at h
        refine seqR_good (fun q hq => ihAt _ _ _ _ hq) ?_ _ h
        intro av s₁ _ q hk
        refine seqR_good (fun q hq => ihCh _ _ _ _ hq) ?_ _ hk
        intro cv s₂ _ q hk₂
        split at hk₂
        · split at hk₂ <;> (simp only [okR] at hk₂; cases hk₂; exact good_here)
        · simp only [okR] at hk₂; cases hk₂; exact good_here
      | htmlExpr e => simp only [evalNode] at h; exact ihE _ _ _ h
      | htmlText t => simp only [evalNode, okR] at h; cases h; exact good_here
      | templateStr parts =>
        simp only [evalNode] at h
        refine seqR_good (fun q hq => ihPt _ _ _ _ hq) ?_ _ h
        intro pv s₁ _ q hk
        split at hk <;> (simp only [okR] at hk; cases hk; exact good_here)
      | templateContent c => simp only [evalNode, okR] at h; cases h; exact good_here
    · -- evalStmtsB
      intro ns s q h
      match ns, h with
      | [], h => simp only [evalStmtsB, okR] at h; cases h; exact good_here
      | n :: rest, h =>
        simp only [evalStmtsB] at h
        refine seqR_good (fun q hq => ihE _ _ _ hq) ?_ _ h
        intro v s₁ _ q hk
        exact ihS _ _ _ hk
    · -- whileGo
      intro c b s q h
      simp only [whileGo] at h
      refine seqR_good (fun q hq => ihE _ _ _ hq) ?_ _ h
      intro v s₁ _ q hk
      split at hk
      · refine seqR_good (fun q hq => ihE _ _ _ hq) ?_ _ hk
        intro w s₂ _ q hk₂
        exact ihW _ _ _ _ hk₂
      · simp only [okR] at hk; cases hk; exact good_here
    · -- evalFinally
      intro fin? r q h
      simp only [evalFinally] at h
      match fin?, h with
      | none, h =>
        simp only at h
        cases h
        intro hc _
        exact ⟨rfl, hc⟩
      | some f, h =>
        simp only at h
        match hf : evalNode fuel f r.st, h with
        | none, h => exact absurd h (by simp)
        | some ⟨of, stf, cf⟩, h =>
          have hg := ihE _ _ _ hf
          match of, h with
          | .ok v, h =>
            simp only at h
            cases h
            intro hc _
            simp only [Bool.or_eq_false_iff] at hc
            exact ⟨hg hc.2 trivial, hc.1⟩
          | .ret v, h =>
            simp only at h
            cases h
            intro hc _
            simp only [Bool.or_eq_false_iff] at hc
            exact ⟨hg hc.2 trivial, hc.1⟩
          | .exn v, h =>
            simp only at h
            cases h
            intro _ ho
            exact absurd ho (by simp [okOrRet])
    · -- evalElems
      intro es acc s q h
      match es, h with
      | [], h => simp only [evalElems, okR] at h; cases h; exact good_here
      | e :: rest, h =>
        simp only [evalElems] at h
        split at h
        · refine seqR_good (fun q hq => ihE _ _ _ hq) ?_ _ h
          intro v s₁ _ q hk
          split at hk
          · exact ihEl _ _ _ _ hk
          · simp only [exnR] at hk; cases hk; exact good_here
        · refine seqR_good (fun q hq => ihE _ _ _ hq) ?_ _ h
          intro v s₁ _ q hk
          exact ihEl _ _ _ _ hk
    · -- evalArgs
      intro es acc s q h
      match es, h with
      | [], h => simp only [evalArgs, okR] at h; cases h; exact good_here
      | e :: rest, h =>
        simp only [evalArgs] at h
        refine seqR_good (fun q hq => ihE _ _ _ hq) ?_ _ h
        intro v s₁ _ q hk
        exact ihA _ _ _ _ hk
    · -- evalFields
      intro fs acc s q h
      match fs, h with
      | [], h => simp only [evalFields, okR] at h; cases h; exact good_here
      | f :: rest, h =>
        simp only [evalFields] at h
        split at h
        · split at h
          · refine seqR_good (fun q hq => ihE _ _ _ hq) ?_ _ h
            intro v s₁ _ q hk
            exact ihFl _ _ _ _ hk
          · exact ihFl _ _ _ _ h
        · refine seqR_good (fun q hq => ihE _ _ _ hq) ?_ _ h
          intro kv s₁ _ q hk
          refine seqR_good (fun q hq => ihE _ _ _ hq) ?_ _ hk
          intro vv s₂ _ q hk₂
          exact ihFl _ _ _ _ hk₂
        · refine seqR_good (fun q hq => ihE _ _ _ hq) ?_ _ h
          intro vv s₁ _ q hk
          exact ihFl _ _ _ _ hk
    · -- evalAttrs
      intro ats acc s q h
      match ats, h with
      | [], h => simp only [evalAttrs, okR] at h; cases h; exact good_here
      | (key, nd) :: rest, h =>
        simp only [evalAttrs] at h
        refine seqR_good (fun q hq => ihE _ _ _ hq) ?_ _ h
        intro v s₁ _ q hk
        exact ihAt _ _ _ _ hk
    · -- evalChildren
      intro cs acc s q h
      match cs, h with
      | [], h => simp only [evalChildren, okR] at h; cases h; exact good_here
      | e :: rest, h =>
        simp only [evalChildren] at h
        refine seqR_good (fun q hq => ihE _ _ _ hq) ?_ _ h
        intro v s₁ _ q hk
        exact ihCh _ _ _ _ hk
    · -- evalParts
      intro ps acc s q h
      match ps, h with
      | [], h => simp only [evalParts, okR] at h; cases h; exact good_here
      | e :: rest, h =>
        simp only [evalParts] at h
        refine seqR_good (fun q hq => ihE _ _ _ hq) ?_ _ h
        intro v s₁ _ q hk
        exact ihPt _ _ _ _ hk
    · -- invoke
      intro κ ps b args s q h
      simp only [invoke] at h
      match hm : marshallGo fuel ps args 0
          (pushScope (some []) (pushScope (some κ) { s with stack := s.stack + 1 })), h with
      | none, h => exact absurd h (by simp)
      | some ⟨om, stm, cm⟩, h =>
        have hgM := ihM _ _ _ _ _ hm
        match om, h with
        | .ok v₀, h =>
          simp only at h
          match hb : evalNode fuel b stm, h with
          | none, h => exact absurd h (by simp)
          | some ⟨ob, stb, cb⟩, h =>
            have hgB := ihE _ _ _ hb
            match ob, h with
            | .ok v, h =>
              simp only at h
              cases h
              intro hc _
              simp only [Bool.or_eq_false_iff] at hc
              have e₁ := hgM hc.1 trivial
              have e₂ := hgB hc.2 trivial
              simp only [sig, pushScope, popScope, popStack1, List.length_cons,
                Prod.mk.injEq, List.length_tail] at e₁ e₂ ⊢
              omega
            | .ret v, h =>
              simp only at h
              cases h
              intro hc _
              simp only [Bool.or_eq_false_iff] at hc
              have e₁ := hgM hc.1 trivial
              have e₂ := hgB hc.2 trivial
              simp only [sig, pushScope, popScope, popStack1, List.length_cons,
                Prod.mk.injEq, List.length_tail] at e₁ e₂ ⊢
              omega
            | .exn v, h =>
              simp only at h
              cases h
              intro _ ho
              exact absurd ho (by simp [okOrRet])
        | .ret v₀, h =>
          simp only at h
          cases h
          intro hc _
          exact absurd hc (by simp)
        | .exn v₀, h =>
          simp only at h
          cases h
          intro hc _
          exact absurd hc (by simp)
    · -- marshallGo
      intro ps args idx s q h
      match ps, h with
      | [], h => simp only [marshallGo, okR] at h; cases h; exact good_here
      | p :: rest, h =>
        simp only [marshallGo] at h
        split at h
        · split at h
          · refine seqR_good (fun q hq => ihE _ _ _ hq) ?_ _ h
            intro v s₁ _ q hk
            refine seqR_good (fun q hq => ihAs _ _ _ _ hq) ?_ _ hk
            intro w s₂ _ q hk₂
            exact ihM _ _ _ _ _ hk₂
          · refine seqR_good (fun q hq => ihAs _ _ _ _ hq) ?_ _ h
            intro w s₁ _ q hk
            exact ihM _ _ _ _ _ hk
        · refine seqR_good (fun q hq => ihAs _ _ _ _ hq) ?_ _ h
          intro w s₁ _ q hk
          exact ihM _ _ _ _ _ hk
    · -- assignVal
      intro v val s q h
      match v, h with
      | .ident name d?, h =>
        simp only [assignVal] at h
        cases h
        exact good_sig (sig_setTopScope _ _ _)
      | .destructureArr vars d?, h =>
        simp only [assignVal] at h
        exact ihDA _ _ _ _ _ h
      | .destructureObj vars d?, h =>
        simp only [assignVal] at h
        exact ihDO _ _ _ _ _ h
    · -- destrArrGo
      intro vars idx val s q h
      match vars, h with
      | [], h => simp only [destrArrGo, okR] at h; cases h; exact good_here
      | none :: rest, h =>
        simp only [destrArrGo] at h
        exact ihDA _ _ _ _ _ h
      | some dv :: rest, h =>
        simp only [destrArrGo] at h
        split at h
        · split at h
          · exact good_trans (sig_setTopScope _ _ _) (ihDA _ _ _ _ _ h)
          · simp only [exnR] at h; cases h; exact good_here
        · split at h
          · split at h
            · refine seqR_good (fun q hq => ihE _ _ _ hq) ?_ _ h
              intro dvv s₁ _ q hk
              exact good_trans (sig_setTopScope _ _ _) (ihDA _ _ _ _ _ hk)
            · exact good_trans (sig_setTopScope _ _ _) (ihDA _ _ _ _ _ h)
          · exact good_trans (sig_setTopScope _ _ _) (ihDA _ _ _ _ _ h)
    · -- destrObjGo
      intro vars names val s q h
      match vars, h with
      | [], h => simp only [destrObjGo, okR] at h; cases h; exact good_here
      | dv :: rest, h =>
        simp only [destrObjGo] at h
        split at h
        · exact good_trans (sig_setTopScope _ _ _) (ihDO _ _ _ _ _ h)
        · split at h
          · split at h
            · refine seqR_good (fun q hq => ihE _ _ _ hq) ?_ _ h
              intro dvv s₁ _ q hk
              exact good_trans (sig_setTopScope _ _ _) (ihDO _ _ _ _ _ hk)
            · exact good_trans (sig_setTopScope _ _ _) (ihDO _ _ _ _ _ h)
          · exact good_trans (sig_setTopScope _ _ _) (ihDO _ _ _ _ _ h)
    · -- evalVariable
      intro v s q h
      simp only [evalVariable] at h
      split at h
      · simp only [okR] at h; cases h; exact good_here
      · refine seqR_good (fun q hq => ihE _ _ _ hq) ?_ _ h
        intro dv s₁ _ q hk
        refine seqR_good (fun q hq => ihAs _ _ _ _ hq) ?_ _ hk
        intro w s₂ _ q hk₂
        cases hk₂
        exact good_here
    · -- interpGo
      intro cs acc s q h
      match cs, h with
      | [], h => simp only [interpGo, okR] at h; cases h; exact good_here
      | c :: rest, h =>
        simp only [interpGo] at h
        split at h
        · split at h
          · split at h
            · exact absurd h (by simp)
            · refine seqR_good (fun q hq => ihE _ _ _ hq) ?_ _ h
              intro v s₁ _ q hk
              exact ihIn _ _ _ _ hk
          · exact ihIn _ _ _ _ h
        · exact ihIn _ _ _ _ h


/-! ### Observation projections (decidable views of evaluation results) -/

/-- Tag of an outcome. -/
def outTag : Outcome → String
  | .ok _ => "ok"
  | .ret _ => "ret"
  | .exn _ => "exn"

/-- Payload of an outcome. -/
def outVal : Outcome → Value
  | .ok v => v
  | .ret v => v
  | .exn v => v

/-- The decidable observation of an evaluation result: outcome tag, rendered
payload, scope-stack depth, closure-stack depth, and the caught bit. -/
def obs (r : EvalRes) : String × String × Nat × Nat × Bool :=
  (outTag r.out, jsToString (outVal r.out), r.st.scopes.length, r.st.stack, r.caught)

/-- First token of an input. -/
def lexFirst (input : String) : Option Token :=
  (lexNextTok (mkLexer input)).toOption.bind (fun p => p.1)

/-- Run one binary-expression level on an input: the parsed node's source text
and a description of the next unconsumed token. -/
def parseLevelObs (p : Nat → PState → PRes Node) (input : String) : Option (String × String) :=
  match p 40 ⟨mkLexer input, 0⟩ with
  | some (.ok (n, st)) =>
    match pConsume none st with
    | .ok (some t, _) => some (toSource n, t.ttype ++ " " ++ tokStr t.tvalue)
    | .ok (none, _) => some (toSource n, "end")
    | .error _ => some (toSource n, "error")
  | _ => none

/-! ### Test fixtures -/

/-- A function body: `{ try { return k } catch { return m } return 3 }`. -/
def c2Body (k m : Int) : Node :=
  .block [.tryCatch (.block [.ret (some (.lit (.num k)))])
            (.block [.ret (some (.lit (.num m)))]) none none,
          .ret (some (.lit (.num 3)))]

/-- Module `d`: `export default 41;`. -/
def nodesD : List Node := [.exportN (some (.lit (.num 41))) none none false []]

/-- Module `e`: two default imports of `d`. -/
def nodesE : List Node :=
  [.importN (some "x") none none "d", .importN (some "y") none none "d"]

/-- The diamond resolver: `e` imports `d` twice. -/
def diamondR : Resolver := fun _ f =>
  if f = "d" then some nodesD else if f = "e" then some nodesE else none

/-- `import b from "b"` (the import inside module `a`). -/
def impAB : Node := .importN (some "b") none none "b"

/-- `import a from "a"` (the import inside module `b`). -/
def impBA : Node := .importN (some "a") none none "a"

/-- The two-module cycle: `a` imports `b`, `b` imports `a`. -/
def cycR : Resolver := fun _ f =>
  if f = "a" then some [impAB] else if f = "b" then some [impBA] else none

/-- Every bundling entry point of the cyclic graph runs out of fuel. -/
def CycNone (fuel : Nat) : Prop :=
  (∀ dir st, bundleFile fuel cycR dir "a" st = none) ∧
  (∀ dir st, bundleFile fuel cycR dir "b" st = none) ∧
  (∀ st, fileToSource fuel cycR [impAB] st = none) ∧
  (∀ st, fileToSource fuel cycR [impBA] st = none) ∧
  (∀ acc st, importsSrc fuel cycR [impAB] acc st = none) ∧
  (∀ acc st, importsSrc fuel cycR [impBA] acc st = none) ∧
  (∀ st, importToSource fuel cycR impAB st = none) ∧
  (∀ st, importToSource fuel cycR impBA st = none) ∧
  (∀ st, handleSourceImport fuel cycR "b" st = none) ∧
  (∀ st, handleSourceImport fuel cycR "a" st = none)

theorem cycNone : ∀ fuel, CycNone fuel := by
  intro fuel
  induction fuel with
  | zero =>
    exact ⟨fun _ _ => rfl, fun _ _ => rfl, fun _ => rfl, fun _ => rfl,
           fun _ _ => rfl, fun _ _ => rfl, fun _ => rfl, fun _ => rfl,
           fun _ => rfl, fun _ => rfl⟩
  | succ fuel ih =>
    obtain ⟨ba, bb, fa, fb, ia, ib, ta, tb, hb, ha⟩ := ih
    refine ⟨?_, ?_, ?_, ?_, ?_, ?_, ?_, ?_, ?_, ?_⟩
    · intro dir st
      simp [bundleFile, cycR, fa]
    · intro dir st
      simp [bundleFile, cycR, fb]
    · intro st
      have h1 : [impAB].filter isImportNode = [impAB] := rfl
      have h2 : [impAB].filter (fun n => !isImportNode n) = [] := rfl
      simp [fileToSource, h1, h2, ia]
    · intro st
      have h1 : [impBA].filter isImportNode = [impBA] := rfl
      have h2 : [impBA].filter (fun n => !isImportNode n) = [] := rfl
      simp [fileToSource, h1, h2, ib]
    · intro acc st
      simp [importsSrc, ta]
    · intro acc st
      simp [importsSrc, tb]
    · intro st
      simp [importToSource, impAB, hb]
    · intro st
      simp [importToSource, impBA, ha]
    · intro st
      simp [handleSourceImport, bb]
    · intro st
      simp [handleSourceImport, ba]

/-! ### Shared lemmas for the claim theorems -/

/-- A `seqR` whose continuation only ever completes normally with `undefined`
itself only completes normally with `undefined`. -/
theorem seqR_ok_val {r : OR} {k : Value → State → OR} {v : Value} {st : State} {c : Bool}
    (h : seqR r k = some ⟨.ok v, st, c⟩)
    (hk : ∀ w s₁ v' st' c', k w s₁ = some ⟨.ok v', st', c'⟩ → v' = .undef) :
    v = .undef := by
  unfold seqR at h
  match hr : r, h with
  | none, h => exact absurd h (by simp)
  | some ⟨.ok w, s₁, cc⟩, h =>
    simp only [orFlag] at h
    match hk2 : k w s₁, h with
    | none, h => exact absurd h (by simp)
    | some ⟨o₂, st₂, c₂⟩, h =>
      simp only [Option.map_some'] at h
      injection h with h'
      cases o₂ with
      | ok v₂ =>
        have := hk w s₁ v₂ st₂ c₂ hk2
        have e : Outcome.ok v₂ = Outcome.ok v := congrArg EvalRes.out h'
        injection e with e'
        rw [← e', this]
      | ret v₂ => exact absurd (congrArg EvalRes.out h') (by simp)
      | exn v₂ => exact absurd (congrArg EvalRes.out h') (by simp)
  | some ⟨.ret w, s₁, cc⟩, h => exact absurd h (by simp)
  | some ⟨.exn w, s₁, cc⟩, h => exact absurd h (by simp)

/-- `getLocal` skips every frame whose value at the name is `undefined` and
returns the first other value. -/
theorem getLocal_skip (g : Scope) (pre post : List Scope) (fr : Scope) (x : String)
    (v : Value) (stk : Nat) (hpre : ∀ sc ∈ pre, scopeGet sc x = .undef)
    (hfr : scopeGet fr x = v) (hv : v ≠ .undef) :
    getLocal ⟨g, pre ++ fr :: post, stk⟩ x = v := by
  induction pre with
  | nil =>
    unfold getLocal
    simp only [List.nil_append, List.find?]
    rw [hfr]
    cases v with
    | undef => exact absurd rfl hv
    | _ => simp [hfr]
  | cons sc rest ih =>
    unfold getLocal
    simp only [List.cons_append, List.find?]
    rw [hpre sc (by simp)]
    simp only []
    exact ih (fun sc' h => hpre sc' (by simp [h]))

/-- `getLocal` falls back to truthy globals when every frame's value at the
name is `undefined`. -/
theorem getLocal_global (g : Scope) (scopes : List Scope) (x : String) (stk : Nat)
    (hall : ∀ sc ∈ scopes, scopeGet sc x = .undef) :
    getLocal ⟨g, scopes, stk⟩ x =
      (if truthy (scopeGet g x) then scopeGet g x else .undef) := by
  induction scopes with
  | nil => rfl
  | cons sc rest ih =>
    unfold getLocal
    simp only [List.find?]
    rw [hall sc (by simp)]
    simp only []
    have := ih (fun sc' h => hall sc' (by simp [h]))
    unfold getLocal at this
    exact this

/-! ### The claims -/

/-- C1 (corrected): for every node and state, an evaluation that caught no
exception and completed normally or via the return signal restores the
scope-stack depth and the closure-stack depth; the caught-exception paths of
the original claim are excluded (see the counterexample). -/
theorem c1_depths_restored (fuel : Nat) (n : Node) (s : State) (q : EvalRes)
    (h : evalNode fuel n s = some q) (hc : q.caught = false) (ho : okOrRet q.out) :
    sig q.st = sig s :=
  (goodAll fuel).1 n s q h hc ho

theorem c1_witness :
    evalNode 5 (.lit (.num 1)) ⟨[], [[]], 0⟩ = some ⟨.ok (.num 1), ⟨[], [[]], 0⟩, false⟩ ∧
    sig (⟨[], [[]], 0⟩ : State) = sig ⟨[], [[]], 0⟩ :=
  ⟨rfl, c1_depths_restored 5 (.lit (.num 1)) ⟨[], [[]], 0⟩ ⟨.ok (.num 1), ⟨[], [[]], 0⟩, false⟩
    rfl rfl trivial⟩

/-- C1 counterexample: `try { throw 0 } catch {}` completes normally but
leaves the scope-stack depth at 2 instead of the original 1 (the thrown
exception skips `BlockNode.evaluate`'s `popScope`). -/
theorem c1_counterexample :
    (evalNode 9 (.tryCatch (.block [.throwN (.lit (.num 0))]) (.block []) none none)
        ⟨[], [[]], 0⟩).map obs = some ("ok", "undefined", 2, 0, true) ∧ (2 : Nat) ≠ 1 :=
  ⟨rfl, by decide⟩

/-- C2 (corrected): a `return` unwinding out of a `try` block is caught by the
enclosing `try/catch` (the source's `catch` clause also catches the
`ReturnValueException`): the catch block runs, and its own `return m` becomes
the call's result for every `k`, `m` and caller state. -/
theorem c2_return_caught_by_catch (k m : Int) (s : State) :
    invoke 20 [] [] (c2Body k m) [] s = some ⟨.ok (.num m), s, true⟩ := rfl

/-- C2 counterexample: with `try { return 1 } catch { return 42 } return 3`
the call returns 42 — the catch block ran on the return unwind — instead of
the 1 the claim implies. -/
theorem c2_counterexample :
    (invoke 20 [] [] (c2Body 1 42) [] ⟨[], [[]], 0⟩).map obs =
      some ("ok", "42", 1, 0, true) ∧ ("42" : String) ≠ "1" :=
  ⟨rfl, by decide⟩

/-- C3 (corrected): a closure body does not observe only the captured scope
plus the parameter frame — the caller's whole scope stack stays visible below
them: invoking a parameterless closure on body `load x` resolves `x` through
the frames `[params, captured] ++ caller's scopes`. -/
theorem c3_caller_scope_visible (fuel : Nat) (κ : Scope) (x : String) (s : State) :
    invoke (fuel + 2) κ [] (.load x) [] s =
      some ⟨.ok (getLocal (pushScope (some []) (pushScope (some κ)
        { s with stack := s.stack + 1 })) x), s, false⟩ := rfl

/-- C3 counterexample: the same closure (empty captured scope, no parameters,
body `load y`) invoked with the same (no) arguments from two caller scope
stacks that differ only in `y` — a name absent from the captured scope and
the parameters — produces different results. -/
theorem c3_counterexample :
    (invoke 10 [] [] (.load "y") [] ⟨[], [[("y", .num 5)]], 0⟩).map obs =
      some ("ok", "5", 1, 0, false) ∧
    (invoke 10 [] [] (.load "y") [] ⟨[], [[]], 0⟩).map obs =
      some ("ok", "undefined", 1, 0, false) ∧
    ("5" : String) ≠ "undefined" :=
  ⟨rfl, rfl, by decide⟩

/-- C4 (corrected): the bundler has no cache — on the two-module cycle
`a ↔ b` bundling diverges (every fuel runs out), and on the diamond (module
`e` importing `d` twice) the body of `d` is emitted twice. -/
theorem c4_no_cache :
    (∀ fuel dir st, bundleFile fuel cycR dir "a" st = none) ∧
    ((bundle 40 diamondR "." "e").map (fun r => r.toOption.map
      (fun p => p.2.files.map BFile.name))) = some (some ["d", "d", "e"]) :=
  ⟨fun fuel => (cycNone fuel).1, by decide!⟩

/-- C4 counterexample: bundling the diamond emits module `d` twice, not
exactly once. -/
theorem c4_counterexample :
    ((bundle 40 diamondR "." "e").map (fun r => r.toOption.map
      (fun p => p.2.files.countP (fun f => f.name == "d")))) = some (some 2) ∧
    (2 : Nat) ≠ 1 :=
  ⟨by decide!, by decide⟩

/-- C5 (corrected): the destructuring program returns 3, with `a = 1` and
`b = [3, 4]` (the rest element starts after the hole's index, so it collects
two values, not three). -/
theorem c5_destructure_returns_three :
    ((runProgram "const [a, , ...b] = [1, 2, 3, 4]; return a + b.length;"
        ⟨[], [[]], 0⟩ 300).map
      (fun e => e.toOption.map (fun r => (outTag r.out, jsToString (outVal r.out),
        jsToString (getLocal r.st "a"), jsToString (getLocal r.st "b"),
        jsToString (fieldGet (getLocal r.st "b") "length"))))) =
      some (some ("ret", "3", "1", "3,4", "2")) := by decide!

/-- C5 counterexample: the program's returned value renders as "3", not the
"4" the claim states. -/
theorem c5_counterexample :
    ((runProgram "const [a, , ...b] = [1, 2, 3, 4]; return a + b.length;"
        ⟨[], [[]], 0⟩ 300).map
      (fun e => e.toOption.map (fun r => jsToString (outVal r.out)))) = some (some "3") ∧
    ("3" : String) ≠ "4" :=
  ⟨by decide!, by decide⟩

/-- C6 (corrected): multi-character operators that do not begin with a symbol
character lex by longest match into one `operator` token, but `<=` and `>=`
are split (the scanner reaches the symbol set first and emits `<` resp. `>`),
and `/` and `/=` fail outright with *unrecognised token*. -/
theorem c6_operator_lexing :
    (["+=", "-=", "*=", "++", "--", "&&", "||", "===", "==", "=", "!==", "!=",
      "+", "-", "*", "!"].all
      (fun op => match lexNextTok (mkLexer (op ++ " x")) with
        | .ok (some t, _) => t.ttype == "operator" && t.tvalue == .str op
        | _ => false)) = true ∧
    lexFirst "<= 1" = some ⟨"<", .str "<", 0⟩ ∧
    lexFirst ">= 1" = some ⟨">", .str ">", 0⟩ ∧
    (match lexNextTok (mkLexer "/= 1") with
      | .error _ => true | .ok _ => false) = true ∧
    (match lexNextTok (mkLexer "/ 1") with
      | .error _ => true | .ok _ => false) = true :=
  ⟨by decide!, by decide!, by decide!, by decide!, by decide!⟩

/-- C6 counterexample: on input starting `<=`, the lexer produces the symbol
token `<`, not a single `operator` token carrying `<=`. -/
theorem c6_counterexample :
    lexFirst "<= 1" = some ⟨"<", .str "<", 0⟩ ∧
    (Token.mk "<" (.str "<") 0) ≠ (Token.mk "operator" (.str "<=") 0) :=
  ⟨by decide!, by decide⟩

/-- C7 (corrected): `Load` does not stop at the topmost frame in which the
name is *defined* — `Runtime.getLocal` skips every frame whose value at the
name is `undefined` — so it returns the topmost binding whose value is not
`undefined`, and falls back to a truthy `global[name]` (else `undefined`)
when every frame's value is `undefined`. -/
theorem c7_load_skips_undefined :
    (∀ (g : Scope) (pre post : List Scope) (fr : Scope) (x : String) (v : Value)
      (stk fuel : Nat), (∀ sc ∈ pre, scopeGet sc x = .undef) →
      scopeGet fr x = v → v ≠ .undef →
      evalNode (fuel + 1) (.load x) ⟨g, pre ++ fr :: post, stk⟩ =
        some ⟨.ok v, ⟨g, pre ++ fr :: post, stk⟩, false⟩) ∧
    (∀ (g : Scope) (scopes : List Scope) (x : String) (stk fuel : Nat),
      (∀ sc ∈ scopes, scopeGet sc x = .undef) →
      evalNode (fuel + 1) (.load x) ⟨g, scopes, stk⟩ =
        some ⟨.ok (if truthy (scopeGet g x) then scopeGet g x else .undef),
          ⟨g, scopes, stk⟩, false⟩) := by
  constructor
  · intro g pre post fr x v stk fuel hpre hfr hv
    have : evalNode (fuel + 1) (.load x) (⟨g, pre ++ fr :: post, stk⟩ : State) =
        okR (getLocal ⟨g, pre ++ fr :: post, stk⟩ x) ⟨g, pre ++ fr :: post, stk⟩ := rfl
    rw [this, getLocal_skip g pre post fr x v stk hpre hfr hv]
    rfl
  · intro g scopes x stk fuel hall
    have : evalNode (fuel + 1) (.load x) (⟨g, scopes, stk⟩ : State) =
        okR (getLocal ⟨g, scopes, stk⟩ x) ⟨g, scopes, stk⟩ := rfl
    rw [this, getLocal_global g scopes x stk hall]
    rfl

theorem c7_witness :
    scopeGet [("x", Value.undef)] "x" = .undef ∧
    scopeGet [("x", Value.num 1)] "x" = .num 1 ∧
    evalNode 3 (.load "x") ⟨[], [[("x", .undef)], [("x", .num 1)]], 0⟩ =
      some ⟨.ok (.num 1), ⟨[], [[("x", .undef)], [("x", .num 1)]], 0⟩, false⟩ :=
  ⟨rfl, rfl,
   c7_load_skips_undefined.1 [] [[("x", .undef)]] [] [("x", .num 1)] "x" (.num 1) 0 2
     (fun sc h => by simp at h; subst h; rfl) rfl (fun h => Value.noConfusion h)⟩

/-- C7 counterexample: with `x` bound to `undefined` in the innermost frame
and to 1 in the frame below, `load x` returns 1 (the claim requires the
topmost defined binding, i.e. `undefined`). -/
theorem c7_counterexample :
    (evalNode 3 (.load "x") ⟨[], [[("x", .undef)], [("x", .num 1)]], 0⟩).map obs =
      some ("ok", "1", 2, 0, false) ∧ ("1" : String) ≠ "undefined" :=
  ⟨rfl, by decide⟩

/-- C8 (confirmed): at the boolean, equality, arithmetic and geometric levels
the parser reads exactly one right operand and returns: on `a ⋆ b ⋆ c` each
level parses `a ⋆ b` and leaves the second operator unconsumed. -/
theorem c8_one_right_operand :
    parseLevelObs pArithmetic "a + b + c" = some ("a + b", "operator +") ∧
    parseLevelObs pGeometric "a * b * c" = some ("a * b", "operator *") ∧
    parseLevelObs pBoolean "a && b && c" = some ("a && b", "operator &&") ∧
    parseLevelObs pEquality "a === b === c" = some ("a === b", "operator ===") :=
  ⟨by decide!, by decide!, by decide!, by decide!⟩

/-- Injectivity of a normal-completion result at its value. -/
theorem okr_val {v w : Value} {s st : State} {b c : Bool}
    (h : (some ⟨.ok v, s, b⟩ : OR) = some ⟨.ok w, st, c⟩) : w = v := by
  injection h with h1
  injection h1 with h2 h3 h4
  injection h2 with h5
  exact h5.symm

/-- C9 (confirmed): whenever evaluating an assignment expression completes
normally, its value is `undefined` — no assignment yields the assigned value. -/
theorem c9_assignment_yields_undefined (fuel : Nat) (l : Node) (op : String) (r : Node)
    (s : State) (v : Value) (st : State) (c : Bool)
    (h : evalNode fuel (.assign l op r) s = some ⟨.ok v, st, c⟩) : v = .undef := by
  match fuel, h with
  | 0, h => exact absurd h (by simp [evalNode])
  | fuel + 1, h =>
    simp only [evalNode] at h
    split at h
    · split at h
      · exact seqR_ok_val h (fun w s₁ v' st' c' hk => okr_val hk)
      · exact seqR_ok_val h (fun w s₁ v' st' c' hk =>
          seqR_ok_val hk (fun w₂ s₂ v₂ st₂ c₂ hk₂ =>
          seqR_ok_val hk₂ (fun w₃ s₃ v₃ st₃ c₃ hk₃ => okr_val hk₃)))
      · exact seqR_ok_val h (fun w s₁ v' st' c' hk =>
          seqR_ok_val hk (fun w₂ s₂ v₂ st₂ c₂ hk₂ => okr_val hk₂))
      · exact absurd h (by simp [exnR])
    · split at h
      · split at h
        · exact seqR_ok_val h (fun w s₁ v' st' c' hk => okr_val hk)
        · exact seqR_ok_val h (fun w s₁ v' st' c' hk =>
            seqR_ok_val hk (fun w₂ s₂ v₂ st₂ c₂ hk₂ =>
            seqR_ok_val hk₂ (fun w₃ s₃ v₃ st₃ c₃ hk₃ => okr_val hk₃)))
        · exact seqR_ok_val h (fun w s₁ v' st' c' hk =>
            seqR_ok_val hk (fun w₂ s₂ v₂ st₂ c₂ hk₂ => okr_val hk₂))
        · exact absurd h (by simp [exnR])
      · exact okr_val h

theorem c9_witness :
    evalNode 5 (.assign (.load "x") "=" (.lit (.num 1))) ⟨[], [[("x", .num 0)]], 0⟩ =
      some ⟨.ok .undef, ⟨[], [[("x", .num 1)]], 0⟩, false⟩ ∧ Value.undef = Value.undef :=
  ⟨rfl, c9_assignment_yields_undefined 5 (.load "x") "=" (.lit (.num 1))
    ⟨[], [[("x", .num 0)]], 0⟩ .undef ⟨[], [[("x", .num 1)]], 0⟩ false rfl⟩

/-- C10 (confirmed): the top-level `evaluate` entry point yields a parser
error exactly when parsing fails — evaluation failures never propagate — and
on `const x = 1; throw 0; const y = 2;` the throw is discarded with `x` bound
and `y` never evaluated, while a malformed input surfaces its parse error. -/
theorem c10_entry_error_containment :
    (∀ input s fuel r, evaluateEntry input s fuel = some r →
      ((∃ e, r = .error e) ↔ (∃ e, parseProgram input fuel = some (.error e)))) ∧
    ((evaluateEntry "const x = 1; throw 0; const y = 2;" ⟨[], [[]], 0⟩ 200).map
      (fun e => e.toOption.map (fun s' => (jsToString (getLocal s' "x"),
        jsToString (getLocal s' "y"))))) = some (some ("1", "undefined")) ∧
    ((evaluateEntry "const 1;" ⟨[], [[]], 0⟩ 100).map
      (fun e => match e with | .error _ => true | .ok _ => false)) = some true := by
  refine ⟨?_, by decide!, by decide!⟩
  intro input s fuel r h
  unfold evaluateEntry at h
  match hp : parseProgram input fuel, h with
  | none, h => exact absurd h (by simp)
  | some (.error e), h =>
    simp only at h
    injection h with h'
    constructor
    · intro
      exact ⟨e, rfl⟩
    · intro
      exact ⟨e, h' ▸ rfl⟩
  | some (.ok ns), h =>
    simp only at h
    match hr : runTopGo fuel ns s, h with
    | none, h => exact absurd h (by simp)
    | some sf, h =>
      injection h with h'
      constructor
      · rintro ⟨e, he⟩
        rw [← h'] at he
        exact absurd he (by simp)
      · rintro ⟨e, he⟩
        exact absurd he (by simp)

end Eco
